import Mathlib

/-!
Verification of the Fossilize replayer core (cli/fossilize_replay.cpp) against
its natural-language specification.  The C++ code is shallowly embedded:
machine integers become Nat (byte values are kept below 256 by construction of
the readers), Vulkan handles become Nat with 0 playing the role of
VK_NULL_HANDLE, the node-based unordered_map becomes an insertion-ordered
association list, and the worker switch statement becomes a pure state
transformer driven by an oracle that decides whether each device create call
succeeds and which handle it returns.
-/

namespace Fossilize

/-- Content-addressed identifier, uint64 in the source. -/
abbrev Hash := Nat

/-- Vulkan object handle; 0 stands for VK_NULL_HANDLE. -/
abbrev Handle := Nat

/-- VK_NULL_HANDLE. -/
def VK_NULL_HANDLE : Handle := 0

/-- VK_UUID_SIZE from the Vulkan headers. -/
def VK_UUID_SIZE : Nat := 16

/-- VK_PIPELINE_CACHE_HEADER_VERSION_ONE from the Vulkan headers. -/
def VK_PIPELINE_CACHE_HEADER_VERSION_ONE : Nat := 1

/-- The fields of VkPhysicalDeviceProperties consulted by header validation. -/
structure PhysicalDeviceProperties where
  vendorID : Nat
  deviceID : Nat
  pipelineCacheUUID : List Nat
deriving DecidableEq

/-- The read_le lambda inside validate_pipeline_cache_header: little-endian
u32 assembled from four bytes at the given offset.  Out-of-range reads yield
byte 0; the function is only ever applied after the length check, exactly as
in the source. -/
def read_le (blob : List Nat) (offset : Nat) : Nat :=
  blob.getD (offset + 0) 0 +
    blob.getD (offset + 1) 0 * 2 ^ 8 +
    blob.getD (offset + 2) 0 * 2 ^ 16 +
    blob.getD (offset + 3) 0 * 2 ^ 24

/-- ThreadedReplayer::validate_pipeline_cache_header, translated clause by
clause.  The memcmp of VK_UUID_SIZE bytes at offset 16 against
props.pipelineCacheUUID becomes an equality of the extracted byte segment. -/
def validate_pipeline_cache_header (props : PhysicalDeviceProperties)
    (blob : List Nat) : Bool :=
  if blob.length < 16 + VK_UUID_SIZE then
    false
  else if read_le blob 0 ≠ 16 + VK_UUID_SIZE then
    false
  else if read_le blob 4 ≠ VK_PIPELINE_CACHE_HEADER_VERSION_ONE then
    false
  else if props.vendorID ≠ read_le blob 8 then
    false
  else if props.deviceID ≠ read_le blob 12 then
    false
  else if (blob.drop 16).take VK_UUID_SIZE ≠ props.pipelineCacheUUID then
    false
  else
    true

/-- The pInitialData choice made in ThreadedReplayer::set_application_info:
the on-disk cache bytes are passed as initial data exactly when the header
validates, otherwise pInitialData stays null and a blank cache is created. -/
def initial_cache_data (props : PhysicalDeviceProperties)
    (on_disk_cache : List Nat) : Option (List Nat) :=
  if validate_pipeline_cache_header props on_disk_cache then
    some on_disk_cache
  else
    none

/-- Claim C1: validate_pipeline_cache_header accepts a blob iff it has at
least 16+VK_UUID_SIZE bytes, the little-endian u32 at offset 0 equals
16+VK_UUID_SIZE, the one at offset 4 equals 1, the ones at offsets 8 and 12
equal the device vendorID and deviceID, and the VK_UUID_SIZE bytes from
offset 16 equal the device pipelineCacheUUID; on a mismatch the replayer
falls back to a blank pipeline cache with pInitialData left null. -/
theorem validate_pipeline_cache_header_spec
    (props : PhysicalDeviceProperties) (blob : List Nat) :
    (validate_pipeline_cache_header props blob = true ↔
      (16 + VK_UUID_SIZE ≤ blob.length ∧
       read_le blob 0 = 16 + VK_UUID_SIZE ∧
       read_le blob 4 = VK_PIPELINE_CACHE_HEADER_VERSION_ONE ∧
       read_le blob 8 = props.vendorID ∧
       read_le blob 12 = props.deviceID ∧
       (blob.drop 16).take VK_UUID_SIZE = props.pipelineCacheUUID)) ∧
    (validate_pipeline_cache_header props blob = false →
      initial_cache_data props blob = none) ∧
    (validate_pipeline_cache_header props blob = true →
      initial_cache_data props blob = some blob) := by
  refine ⟨?_, ?_, ?_⟩
  · unfold validate_pipeline_cache_header
    by_cases h1 : blob.length < 16 + VK_UUID_SIZE
    · rw [if_pos h1]
      simp only [Bool.false_eq_true, false_iff]
      intro hc
      omega
    · rw [if_neg h1]
      by_cases h2 : read_le blob 0 ≠ 16 + VK_UUID_SIZE
      · rw [if_pos h2]
        simp only [Bool.false_eq_true, false_iff]
        intro hc
        exact h2 hc.2.1
      · rw [if_neg h2]
        by_cases h3 : read_le blob 4 ≠ VK_PIPELINE_CACHE_HEADER_VERSION_ONE
        · rw [if_pos h3]
          simp only [Bool.false_eq_true, false_iff]
          intro hc
          exact h3 hc.2.2.1
        · rw [if_neg h3]
          by_cases h4 : props.vendorID ≠ read_le blob 8
          · rw [if_pos h4]
            simp only [Bool.false_eq_true, false_iff]
            intro hc
            exact h4 hc.2.2.2.1.symm
          · rw [if_neg h4]
            by_cases h5 : props.deviceID ≠ read_le blob 12
            · rw [if_pos h5]
              simp only [Bool.false_eq_true, false_iff]
              intro hc
              exact h5 hc.2.2.2.2.1.symm
            · rw [if_neg h5]
              by_cases h6 : (blob.drop 16).take VK_UUID_SIZE ≠
                  props.pipelineCacheUUID
              · rw [if_pos h6]
                simp only [Bool.false_eq_true, false_iff]
                intro hc
                exact h6 hc.2.2.2.2.2
              · rw [if_neg h6]
                constructor
                · intro _
                  exact ⟨by omega, not_ne_iff.mp h2, not_ne_iff.mp h3,
                    (not_ne_iff.mp h4).symm, (not_ne_iff.mp h5).symm,
                    not_ne_iff.mp h6⟩
                · intro _
                  rfl
  · intro h
    unfold initial_cache_data
    simp [h]
  · intro h
    unfold initial_cache_data
    simp [h]

/-- Example device properties used to exercise the validation theorem. -/
def exampleProps : PhysicalDeviceProperties :=
  { vendorID := 5, deviceID := 6, pipelineCacheUUID := List.replicate 16 7 }

/-- Example on-disk cache blob whose header matches exampleProps. -/
def exampleBlob : List Nat :=
  [32, 0, 0, 0, 1, 0, 0, 0, 5, 0, 0, 0, 6, 0, 0, 0] ++ List.replicate 16 7

/-- Witness for C1 at a concrete device and blob. -/
theorem validate_pipeline_cache_header_spec_witness :
    validate_pipeline_cache_header exampleProps exampleBlob = true ∧
    initial_cache_data exampleProps exampleBlob = some exampleBlob := by
  have h := validate_pipeline_cache_header_spec exampleProps exampleBlob
  have hv : validate_pipeline_cache_header exampleProps exampleBlob = true :=
    h.1.mpr (by decide)
  exact ⟨hv, h.2.2 hv⟩

/-- ResourceTag, in the declaration order implied by the tag_names table of
run_normal_process (AppInfo, Sampler, Descriptor Set Layout, Pipeline Layout,
Shader Module, Render Pass, Graphics Pipeline, Compute Pipeline). -/
inductive ResourceTag where
  | RESOURCE_APPLICATION_INFO
  | RESOURCE_SAMPLER
  | RESOURCE_DESCRIPTOR_SET_LAYOUT
  | RESOURCE_PIPELINE_LAYOUT
  | RESOURCE_SHADER_MODULE
  | RESOURCE_RENDER_PASS
  | RESOURCE_GRAPHICS_PIPELINE
  | RESOURCE_COMPUTE_PIPELINE
  | RESOURCE_COUNT
deriving DecidableEq

open ResourceTag

/-- The playback_order array of run_normal_process, verbatim. -/
def playback_order : List ResourceTag :=
  [RESOURCE_APPLICATION_INFO,
   RESOURCE_SHADER_MODULE,
   RESOURCE_SAMPLER,
   RESOURCE_DESCRIPTOR_SET_LAYOUT,
   RESOURCE_PIPELINE_LAYOUT,
   RESOURCE_RENDER_PASS,
   RESOURCE_GRAPHICS_PIPELINE,
   RESOURCE_COMPUTE_PIPELINE]

/-- Observable scheduling events of run_normal_process: decoding all records
of one tag, a sync_worker_threads barrier, the two deferred resolvers, and
thread teardown. -/
inductive ReplayEvent where
  | decode (tag : ResourceTag)
  | sync
  | resolve_graphics
  | resolve_compute
  | teardown
deriving DecidableEq

/-- The event trace of run_normal_process: for each tag of playback_order the
records are decoded, then (translating the trailing if-chain of the loop
body) a barrier follows RESOURCE_RENDER_PASS, and the deferred resolvers run
after the two pipeline tags when their deferred lists are non-empty; after
the loop a final barrier and thread teardown.  The two flags say whether the
respective deferred list is non-empty. -/
def run_normal_process_trace (hasDerivedGfx hasDerivedCompute : Bool) :
    List ReplayEvent :=
  (playback_order.map (fun tag =>
    [ReplayEvent.decode tag] ++
      (if tag = RESOURCE_RENDER_PASS then [ReplayEvent.sync]
       else if tag = RESOURCE_GRAPHICS_PIPELINE ∧ hasDerivedGfx then
         [ReplayEvent.resolve_graphics]
       else if tag = RESOURCE_COMPUTE_PIPELINE ∧ hasDerivedCompute then
         [ReplayEvent.resolve_compute]
       else []))).flatten ++
    [ReplayEvent.sync, ReplayEvent.teardown]

/-- Claim C8: the playback order is exactly AppInfo, ShaderModule, Sampler,
DescriptorSetLayout, PipelineLayout, RenderPass, GraphicsPipeline,
ComputePipeline, and in every trace of run_normal_process a
sync_worker_threads barrier immediately follows the RenderPass decode and
precedes every pipeline-tag decode. -/
theorem run_normal_process_playback_order_spec :
    playback_order =
      [RESOURCE_APPLICATION_INFO, RESOURCE_SHADER_MODULE, RESOURCE_SAMPLER,
       RESOURCE_DESCRIPTOR_SET_LAYOUT, RESOURCE_PIPELINE_LAYOUT,
       RESOURCE_RENDER_PASS, RESOURCE_GRAPHICS_PIPELINE,
       RESOURCE_COMPUTE_PIPELINE] ∧
    ∀ hasDerivedGfx hasDerivedCompute : Bool,
      ∃ i : Nat,
        i + 1 <
          (run_normal_process_trace hasDerivedGfx hasDerivedCompute).length ∧
        (run_normal_process_trace hasDerivedGfx hasDerivedCompute).getD i
            ReplayEvent.teardown =
          ReplayEvent.decode RESOURCE_RENDER_PASS ∧
        (run_normal_process_trace hasDerivedGfx hasDerivedCompute).getD
            (i + 1) ReplayEvent.teardown = ReplayEvent.sync ∧
        ∀ j <
            (run_normal_process_trace hasDerivedGfx hasDerivedCompute).length,
          ((run_normal_process_trace hasDerivedGfx hasDerivedCompute).getD j
              ReplayEvent.teardown =
            ReplayEvent.decode RESOURCE_GRAPHICS_PIPELINE ∨
           (run_normal_process_trace hasDerivedGfx hasDerivedCompute).getD j
              ReplayEvent.teardown =
            ReplayEvent.decode RESOURCE_COMPUTE_PIPELINE) →
          i + 1 < j := by
  refine ⟨by decide, ?_⟩
  intro hasDerivedGfx hasDerivedCompute
  refine ⟨5, ?_⟩
  cases hasDerivedGfx <;> cases hasDerivedCompute <;> decide

/-- Size of the ThreadedReplayer::failed_module_hashes array. -/
def failed_module_hashes_size : Nat := 6

/-- The indices written by the robustness snapshot loop in the
RESOURCE_GRAPHICS_PIPELINE case of worker_thread: for i in 0..stageCount the
store failed_module_hashes[i] is executed, with no bounds check. -/
def snapshot_write_indices (stageCount : Nat) : List Nat :=
  List.range stageCount

/-- Claim C10: the robustness snapshot writes stay inside the six-element
failed_module_hashes array exactly when stageCount is at most 6; any create
info with more than six stages makes the loop index past the end. -/
theorem snapshot_write_indices_bounds (stageCount : Nat) :
    ((snapshot_write_indices stageCount).all
      (fun i => decide (i < failed_module_hashes_size))) =
      decide (stageCount ≤ 6) := by
  by_cases h : stageCount ≤ 6
  · rw [decide_eq_true h]
    rw [List.all_eq_true]
    intro i hi
    rw [snapshot_write_indices, List.mem_range] at hi
    exact decide_eq_true (show i < failed_module_hashes_size by
      rw [failed_module_hashes_size]; omega)
  · rw [decide_eq_false h]
    rw [List.all_eq_false]
    refine ⟨6, ?_, ?_⟩
    · rw [snapshot_write_indices, List.mem_range]
      omega
    · simp [failed_module_hashes_size]

/-- VkPipelineCreateFlagBits value ALLOW_DERIVATIVES. -/
def VK_PIPELINE_CREATE_ALLOW_DERIVATIVES_BIT : Nat := 2

/-- VkPipelineCreateFlagBits value DERIVATIVE. -/
def VK_PIPELINE_CREATE_DERIVATIVE_BIT : Nat := 4

/-- Bit test (flags and bit) != 0 as written in the source. -/
def hasFlag (flags bit : Nat) : Bool := flags &&& bit ≠ 0

/-- The fields of VkGraphicsPipelineCreateInfo the replayer consults: flags,
basePipelineHandle (a raw Hash, since derivative-handle resolution is turned
off in the StateReplayer), and the module handle of each pStages entry. -/
structure GraphicsPipelineCreateInfo where
  flags : Nat
  basePipelineHandle : Nat
  stageModules : List Handle
deriving DecidableEq

/-- The fields of VkComputePipelineCreateInfo the replayer consults. -/
structure ComputePipelineCreateInfo where
  flags : Nat
  basePipelineHandle : Nat
  stageModule : Handle
deriving DecidableEq

/-- VkShaderModuleCreateInfo, opaque to the replayer: only its identity
matters here. -/
structure ShaderModuleCreateInfo where
  code : Nat
deriving DecidableEq

/-- The create_info union of PipelineWorkItem as a tagged sum. -/
inductive CreateInfo where
  | graphics (info : GraphicsPipelineCreateInfo)
  | compute (info : ComputePipelineCreateInfo)
  | shader_module (info : ShaderModuleCreateInfo)
deriving DecidableEq

/-- PipelineWorkItem.  The hash_map_entry pointer into the node-stable
unordered_map is modelled as the key of the registered slot (none = null
pointer); the output pointer into the decoder's storage is not part of the
state and its writes are returned explicitly where a claim observes them. -/
structure PipelineWorkItem where
  hash : Hash := 0
  tag : ResourceTag := RESOURCE_COUNT
  contributes_to_index : Bool := true
  create_info : Option CreateInfo := none
  hash_map_entry : Option Hash := none
deriving DecidableEq

/-- DeferredGraphicsInfo (the VkPipeline out-pointer, unobserved by the
claims, is dropped). -/
structure DeferredGraphicsInfo where
  info : GraphicsPipelineCreateInfo
  hash : Hash
  contributes_to_index : Bool
deriving DecidableEq

/-- DeferredComputeInfo. -/
structure DeferredComputeInfo where
  info : ComputePipelineCreateInfo
  hash : Hash
  contributes_to_index : Bool
deriving DecidableEq

/-- The ThreadedReplayer options and members that steer the control flow:
the slice bounds and loop_count from Options, whether opts.control_block is
non-null, and the robustness member. -/
structure ReplayConfig where
  start_graphics_index : Nat := 0
  end_graphics_index : Nat := 4294967295
  start_compute_index : Nat := 0
  end_compute_index : Nat := 4294967295
  loop_count : Nat := 1
  control_block : Bool := false
  robustness : Bool := false
deriving DecidableEq

/-- unordered_map::operator[] used only to materialize a node: default-insert
the key when absent (VkPipeline and VkShaderModule default to
VK_NULL_HANDLE).  Insertion order is kept, which the node-based map makes
stable. -/
def mapRef (m : List (Nat × Nat)) (key : Nat) : List (Nat × Nat) :=
  if (m.lookup key).isSome then m else m ++ [(key, VK_NULL_HANDLE)]

/-- Store through a pointer previously obtained from operator[]: the write
reaches the node with that key and never inserts. -/
def mapWrite (m : List (Nat × Nat)) (key v : Nat) : List (Nat × Nat) :=
  m.map (fun kv => if kv.1 = key then (key, v) else kv)

/-- Key set of a handle map, in node-insertion order. -/
def mapKeys {α : Type} (m : List (Nat × α)) : List Nat :=
  m.map Prod.fst

/-- unordered_map::operator[] followed by assignment: overwrite when the key
exists, insert otherwise. -/
def assocSet {α : Type} (m : List (Nat × α)) (key : Nat) (v : α) :
    List (Nat × α) :=
  if (m.lookup key).isSome then
    m.map (fun kv => if kv.1 = key then (key, v) else kv)
  else
    m ++ [(key, v)]

/-- unordered_map::erase by key. -/
def assocErase {α : Type} (m : List (Nat × α)) (key : Nat) : List (Nat × α) :=
  m.filter (fun kv => kv.1 != key)

/-- The mutable ThreadedReplayer state the claims observe.  Wall-clock
counters are omitted; the per-thread statistics that are flushed into the
atomics on worker exit are fused with those atomics, since only their sum is
ever read. -/
structure ReplayState where
  graphics_pipeline_index : Nat := 0
  compute_pipeline_index : Nat := 0
  shader_modules : List (Hash × Handle) := []
  graphics_pipelines : List (Hash × Handle) := []
  compute_pipelines : List (Hash × Handle) := []
  masked_shader_modules : List Hash := []
  shader_module_to_hash : List (Handle × Hash) := []
  pipeline_work_queue : List PipelineWorkItem := []
  queued_count : Nat := 0
  completed_count : Nat := 0
  derived_graphics : List DeferredGraphicsInfo := []
  derived_compute : List DeferredComputeInfo := []
  potential_graphics_parent : List (Hash × DeferredGraphicsInfo) := []
  potential_compute_parent : List (Hash × DeferredComputeInfo) := []
  skipped_graphics : Nat := 0
  skipped_compute : Nat := 0
  successful_graphics : Nat := 0
  successful_compute : Nat := 0
  shader_module_count : Nat := 0
  graphics_pipeline_count : Nat := 0
  compute_pipeline_count : Nat := 0
  thread_current_graphics_index : Nat := 0
  thread_current_compute_index : Nat := 0
  num_failed_module_hashes : Nat := 0
  failed_module_hashes : List Hash := List.replicate 6 0
deriving DecidableEq

/-- Push a work item under the queue lock: push, notify, queued_count++. -/
def push_work_item (w : PipelineWorkItem) (st : ReplayState) : ReplayState :=
  { st with
    pipeline_work_queue := st.pipeline_work_queue ++ [w],
    queued_count := st.queued_count + 1 }

/-- ThreadedReplayer::mask_shader_module: unordered_set insert. -/
def mask_shader_module (hash : Hash) (st : ReplayState) : ReplayState :=
  if hash ∈ st.masked_shader_modules then st
  else { st with masked_shader_modules := st.masked_shader_modules ++ [hash] }

/-- ThreadedReplayer::enqueue_create_shader_module.  Result: the returned
bool, the value written through the module out-pointer (none = not written
here), and the new state. -/
def enqueue_create_shader_module (hash : Hash) (info : ShaderModuleCreateInfo)
    (st : ReplayState) : Bool × Option Handle × ReplayState :=
  if hash ∈ st.masked_shader_modules then
    (true, some VK_NULL_HANDLE, st)
  else
    let st1 := { st with shader_modules := mapRef st.shader_modules hash }
    let w : PipelineWorkItem :=
      { hash := hash,
        tag := RESOURCE_SHADER_MODULE,
        create_info := some (CreateInfo.shader_module info),
        hash_map_entry := some hash }
    (true, none, push_work_item w st1)

/-- ThreadedReplayer::enqueue_create_graphics_pipeline.  Result as for the
shader-module enqueue. -/
def enqueue_create_graphics_pipeline (hash : Hash)
    (info : GraphicsPipelineCreateInfo) (cfg : ReplayConfig)
    (st : ReplayState) : Bool × Option Handle × ReplayState :=
  let derived := hasFlag info.flags VK_PIPELINE_CREATE_DERIVATIVE_BIT
  let branch : Option Handle × ReplayState :=
    if derived then
      (none,
       { st with derived_graphics :=
          st.derived_graphics ++ [⟨info, hash, true⟩] })
    else if cfg.start_graphics_index ≤ st.graphics_pipeline_index ∧
        st.graphics_pipeline_index < cfg.end_graphics_index then
      let valid_handles :=
        info.stageModules.all (fun m => m != VK_NULL_HANDLE)
      let st1 :=
        if valid_handles then
          { st with graphics_pipelines := mapRef st.graphics_pipelines hash }
        else st
      let w : PipelineWorkItem :=
        { hash := hash,
          tag := RESOURCE_GRAPHICS_PIPELINE,
          create_info :=
            if valid_handles then some (CreateInfo.graphics info) else none,
          hash_map_entry := if valid_handles then some hash else none }
      (none, push_work_item w st1)
    else
      let st1 :=
        if hasFlag info.flags VK_PIPELINE_CREATE_ALLOW_DERIVATIVES_BIT then
          { st with potential_graphics_parent :=
              assocSet st.potential_graphics_parent hash ⟨info, hash, false⟩ }
        else st
      (some VK_NULL_HANDLE, st1)
  let st2 :=
    if derived then branch.2
    else { branch.2 with
            graphics_pipeline_index := branch.2.graphics_pipeline_index + 1 }
  (true, branch.1, st2)

/-- ThreadedReplayer::enqueue_create_compute_pipeline. -/
def enqueue_create_compute_pipeline (hash : Hash)
    (info : ComputePipelineCreateInfo) (cfg : ReplayConfig)
    (st : ReplayState) : Bool × Option Handle × ReplayState :=
  let derived := hasFlag info.flags VK_PIPELINE_CREATE_DERIVATIVE_BIT
  let branch : Option Handle × ReplayState :=
    if derived then
      (none,
       { st with derived_compute :=
          st.derived_compute ++ [⟨info, hash, true⟩] })
    else if cfg.start_compute_index ≤ st.compute_pipeline_index ∧
        st.compute_pipeline_index < cfg.end_compute_index then
      let valid := info.stageModule ≠ VK_NULL_HANDLE
      let st1 :=
        if valid then
          { st with compute_pipelines := mapRef st.compute_pipelines hash }
        else st
      let w : PipelineWorkItem :=
        { hash := hash,
          tag := RESOURCE_COMPUTE_PIPELINE,
          create_info :=
            if valid then some (CreateInfo.compute info) else none,
          hash_map_entry := if valid then some hash else none }
      (none, push_work_item w st1)
    else
      let st1 :=
        if hasFlag info.flags VK_PIPELINE_CREATE_ALLOW_DERIVATIVES_BIT then
          { st with potential_compute_parent :=
              assocSet st.potential_compute_parent hash ⟨info, hash, false⟩ }
        else st
      (some VK_NULL_HANDLE, st1)
  let st2 :=
    if derived then branch.2
    else { branch.2 with
            compute_pipeline_index := branch.2.compute_pipeline_index + 1 }
  (true, branch.1, st2)

/-- ThreadedReplayer::enqueue_pipeline (VkGraphicsPipelineCreateInfo
overload), used by the deferred resolver. -/
def enqueue_pipeline_graphics (hash : Hash)
    (info : GraphicsPipelineCreateInfo) (contributes_to_index : Bool)
    (cfg : ReplayConfig) (st : ReplayState) : Bool × ReplayState :=
  let st1 :=
    if ¬ contributes_to_index ∨
        (cfg.start_graphics_index ≤ st.graphics_pipeline_index ∧
         st.graphics_pipeline_index < cfg.end_graphics_index) then
      let valid_handles :=
        info.stageModules.all (fun m => m != VK_NULL_HANDLE)
      let stA :=
        if valid_handles then
          { st with graphics_pipelines := mapRef st.graphics_pipelines hash }
        else st
      let w : PipelineWorkItem :=
        { hash := hash,
          tag := RESOURCE_GRAPHICS_PIPELINE,
          contributes_to_index := contributes_to_index,
          create_info :=
            if valid_handles then some (CreateInfo.graphics info) else none,
          hash_map_entry := if valid_handles then some hash else none }
      push_work_item w stA
    else st
  let st2 :=
    if contributes_to_index then
      { st1 with graphics_pipeline_index := st1.graphics_pipeline_index + 1 }
    else st1
  (true, st2)

/-- ThreadedReplayer::enqueue_pipeline (VkComputePipelineCreateInfo
overload). -/
def enqueue_pipeline_compute (hash : Hash)
    (info : ComputePipelineCreateInfo) (contributes_to_index : Bool)
    (cfg : ReplayConfig) (st : ReplayState) : Bool × ReplayState :=
  let st1 :=
    if ¬ contributes_to_index ∨
        (cfg.start_compute_index ≤ st.compute_pipeline_index ∧
         st.compute_pipeline_index < cfg.end_compute_index) then
      let valid := info.stageModule ≠ VK_NULL_HANDLE
      let stA :=
        if valid then
          { st with compute_pipelines := mapRef st.compute_pipelines hash }
        else st
      let w : PipelineWorkItem :=
        { hash := hash,
          tag := RESOURCE_COMPUTE_PIPELINE,
          contributes_to_index := contributes_to_index,
          create_info :=
            if valid then some (CreateInfo.compute info) else none,
          hash_map_entry := if valid then some hash else none }
      push_work_item w stA
    else st
  let st2 :=
    if contributes_to_index then
      { st1 with compute_pipeline_index := st1.compute_pipeline_index + 1 }
    else st1
  (true, st2)

/-- The robustness snapshot of the RESOURCE_GRAPHICS_PIPELINE worker case:
for each stage index the loop stores shader_module_to_hash[module] into
failed_module_hashes[i] (operator[] default-inserts an absent module key).
The in-bounds part of the store is modelled by List.set; that the raw C++
store is in bounds at all is exactly claim C10. -/
def snapshot_failed_hashes (stageModules : List Handle)
    (shader_to_hash : List (Handle × Hash)) (failed : List Hash) :
    List Hash × List (Handle × Hash) :=
  (snapshot_write_indices stageModules.length).foldl
    (fun acc i =>
      let module := stageModules.getD i 0
      let m := mapRef acc.2 module
      (acc.1.set i ((m.lookup module).getD 0), m))
    (failed, shader_to_hash)

/-- One iteration of the shader-module create loop of worker_thread.  The
oracle decides whether vkCreateShaderModule succeeds at iteration i and
which handle it then writes. -/
def worker_shader_iter (robustness : Bool) (hash : Hash)
    (entry : Option Hash) (oracle : Nat → Option Handle) (st : ReplayState)
    (i : Nat) : ReplayState :=
  let st1 :=
    match entry with
    | some k =>
      { st with shader_modules := mapWrite st.shader_modules k VK_NULL_HANDLE }
    | none => st
  match oracle i with
  | some v =>
    let st2 := { st1 with shader_module_count := st1.shader_module_count + 1 }
    let st3 :=
      match entry with
      | some k => { st2 with shader_modules := mapWrite st2.shader_modules k v }
      | none => st2
    if robustness then
      { st3 with shader_module_to_hash :=
          assocSet st3.shader_module_to_hash v hash }
    else st3
  | none => st1

/-- One iteration of the graphics-pipeline create loop of worker_thread. -/
def worker_graphics_iter (cfg : ReplayConfig) (contributes_to_index : Bool)
    (entry : Option Hash) (oracle : Nat → Option Handle) (st : ReplayState)
    (i : Nat) : ReplayState :=
  let st1 :=
    match entry with
    | some k =>
      { st with graphics_pipelines :=
          mapWrite st.graphics_pipelines k VK_NULL_HANDLE }
    | none => st
  match oracle i with
  | some v =>
    let st2 :=
      if contributes_to_index then
        { st1 with graphics_pipeline_count := st1.graphics_pipeline_count + 1 }
      else st1
    let st3 :=
      match entry with
      | some k =>
        { st2 with graphics_pipelines := mapWrite st2.graphics_pipelines k v }
      | none => st2
    if cfg.control_block ∧ i = 0 ∧ contributes_to_index then
      { st3 with successful_graphics := st3.successful_graphics + 1 }
    else st3
  | none => st1

/-- One iteration of the compute-pipeline create loop of worker_thread. -/
def worker_compute_iter (cfg : ReplayConfig) (contributes_to_index : Bool)
    (entry : Option Hash) (oracle : Nat → Option Handle) (st : ReplayState)
    (i : Nat) : ReplayState :=
  let st1 :=
    match entry with
    | some k =>
      { st with compute_pipelines :=
          mapWrite st.compute_pipelines k VK_NULL_HANDLE }
    | none => st
  match oracle i with
  | some v =>
    let st2 :=
      if contributes_to_index then
        { st1 with compute_pipeline_count := st1.compute_pipeline_count + 1 }
      else st1
    let st3 :=
      match entry with
      | some k =>
        { st2 with compute_pipelines := mapWrite st2.compute_pipelines k v }
      | none => st2
    if cfg.control_block ∧ i = 0 ∧ contributes_to_index then
      { st3 with successful_compute := st3.successful_compute + 1 }
    else st3
  | none => st1

/-- The switch statement of worker_thread on one popped work item, followed
by the completed_count++ under the lock.  Items built by the enqueue
functions always carry create_info and hash_map_entry together; a null
hash_map_entry therefore only ever meets the skip path. -/
def worker_process_work_item (cfg : ReplayConfig)
    (oracle : Nat → Option Handle) (st : ReplayState)
    (w : PipelineWorkItem) : ReplayState :=
  let done :=
    match w.tag with
    | RESOURCE_SHADER_MODULE =>
      (List.range cfg.loop_count).foldl
        (worker_shader_iter cfg.robustness w.hash w.hash_map_entry oracle) st
    | RESOURCE_GRAPHICS_PIPELINE =>
      let st1 :=
        if w.contributes_to_index then
          { st with thread_current_graphics_index :=
              st.thread_current_graphics_index + 1 }
        else st
      match w.create_info with
      | some (CreateInfo.graphics ci) =>
        let st2 :=
          if cfg.robustness then
            let s := snapshot_failed_hashes ci.stageModules
              st1.shader_module_to_hash st1.failed_module_hashes
            { st1 with
              num_failed_module_hashes := ci.stageModules.length,
              failed_module_hashes := s.1,
              shader_module_to_hash := s.2 }
          else st1
        if hasFlag ci.flags VK_PIPELINE_CREATE_DERIVATIVE_BIT ∧
            ci.basePipelineHandle = VK_NULL_HANDLE then
          st2
        else
          (List.range cfg.loop_count).foldl
            (worker_graphics_iter cfg w.contributes_to_index
              w.hash_map_entry oracle) st2
      | _ =>
        if cfg.control_block then
          { st1 with skipped_graphics := st1.skipped_graphics + 1 }
        else st1
    | RESOURCE_COMPUTE_PIPELINE =>
      let st1 :=
        if w.contributes_to_index then
          { st with thread_current_compute_index :=
              st.thread_current_compute_index + 1 }
        else st
      match w.create_info with
      | some (CreateInfo.compute ci) =>
        let st2 :=
          if cfg.robustness then
            let m := mapRef st1.shader_module_to_hash ci.stageModule
            { st1 with
              num_failed_module_hashes := 1,
              failed_module_hashes :=
                st1.failed_module_hashes.set 0
                  ((m.lookup ci.stageModule).getD 0),
              shader_module_to_hash := m }
          else st1
        if hasFlag ci.flags VK_PIPELINE_CREATE_DERIVATIVE_BIT ∧
            ci.basePipelineHandle = VK_NULL_HANDLE then
          st2
        else
          (List.range cfg.loop_count).foldl
            (worker_compute_iter cfg w.contributes_to_index
              w.hash_map_entry oracle) st2
      | _ =>
        if cfg.control_block then
          { st1 with skipped_compute := st1.skipped_compute + 1 }
        else st1
    | _ => st
  { done with completed_count := done.completed_count + 1 }

/-- ThreadedReplayer::sync_worker_threads in the sequential model: the
queued items are drained in FIFO order and the main thread resumes once
queued_count equals completed_count.  The oracle is indexed by the absolute
enqueue position so every item keeps its own success pattern. -/
def sync_worker_threads (cfg : ReplayConfig)
    (oracle : Nat → Nat → Option Handle) (st : ReplayState) : ReplayState :=
  let base := st.queued_count - st.pipeline_work_queue.length
  (st.pipeline_work_queue.enum).foldl
    (fun s iw => worker_process_work_item cfg (oracle (base + iw.1)) s iw.2)
    { st with pipeline_work_queue := [] }

/-- Registration half of an enqueue: materialize the hash-map slot the item
points at (as the enqueue_create functions do via operator[]) and push the
item.  Used to state the loop_count scaling claim over an arbitrary batch of
work items. -/
def register_work_item (st : ReplayState) (w : PipelineWorkItem) :
    ReplayState :=
  let st1 :=
    match w.hash_map_entry, w.tag with
    | some k, RESOURCE_SHADER_MODULE =>
      { st with shader_modules := mapRef st.shader_modules k }
    | some k, RESOURCE_GRAPHICS_PIPELINE =>
      { st with graphics_pipelines := mapRef st.graphics_pipelines k }
    | some k, RESOURCE_COMPUTE_PIPELINE =>
      { st with compute_pipelines := mapRef st.compute_pipelines k }
    | _, _ => st
  push_work_item w st1

/-- Enqueue a batch of work items and drain it: the shape of one tag's
playback in run_normal_process. -/
def replay_work_items (cfg : ReplayConfig)
    (oracle : Nat → Nat → Option Handle) (items : List PipelineWorkItem)
    (st : ReplayState) : ReplayState :=
  sync_worker_threads cfg oracle (items.foldl register_work_item st)

/-- One pass of the loop body of unstable_remove_if, as a function of the
two iterator positions into the vector: while first is different from last,
an element satisfying p is swapped to position last-1 and last retreats,
otherwise first advances.  The dite guard packages the loop invariant
first < last and last within bounds needed by the array accesses. -/
def unstableRemoveIfAux {α : Type} (p : α → Bool) (a : Array α)
    (first last : Nat) : Array α × Nat :=
  if h : first < last ∧ last ≤ a.size then
    if p (a.get ⟨first, Nat.lt_of_lt_of_le h.1 h.2⟩) then
      unstableRemoveIfAux p
        (a.swap ⟨first, Nat.lt_of_lt_of_le h.1 h.2⟩
          ⟨last - 1, Nat.lt_of_lt_of_le (by omega) h.2⟩)
        first (last - 1)
    else
      unstableRemoveIfAux p a (first + 1) last
  else
    (a, first)
termination_by last - first
decreasing_by
  · omega
  · omega

/-- The free function unstable_remove_if over the whole vector. -/
def unstable_remove_if {α : Type} (p : α → Bool) (a : Array α) :
    Array α × Nat :=
  unstableRemoveIfAux p a 0 a.size

/-- A list with the element at m pulled to the front and a written into its
old place is a permutation of a consed in front. -/
theorem perm_cons_getElem_set {α : Type} (t : List α) (m : Nat)
    (hm : m < t.length) (a : α) :
    List.Perm (t.get ⟨m, hm⟩ :: t.set m a) (a :: t) := by
  induction t generalizing m with
  | nil => exact absurd hm (by simp)
  | cons b t ih =>
    cases m with
    | zero =>
      simpa using List.Perm.swap a b t
    | succ m =>
      have hm' : m < t.length := by simpa using hm
      have h1 : List.Perm (t.get ⟨m, hm'⟩ :: b :: t.set m a)
          (b :: t.get ⟨m, hm'⟩ :: t.set m a) :=
        List.Perm.swap b (t.get ⟨m, hm'⟩) (t.set m a)
      have h2 : List.Perm (b :: t.get ⟨m, hm'⟩ :: t.set m a)
          (b :: (a :: t)) :=
        List.Perm.cons b (ih m hm')
      have h3 : List.Perm (b :: (a :: t)) (a :: b :: t) :=
        List.Perm.swap a b t
      simpa using (h1.trans h2).trans h3

/-- Writing l[j] at position i and l[i] at position j permutes l: the list
form of Array.swap. -/
theorem set_set_perm {α : Type} (l : List α) (i j : Nat) (hi : i < l.length)
    (hj : j < l.length) :
    List.Perm ((l.set i (l.get ⟨j, hj⟩)).set j (l.get ⟨i, hi⟩)) l := by
  induction l generalizing i j with
  | nil => exact absurd hi (by simp)
  | cons a t ih =>
    cases i with
    | zero =>
      cases j with
      | zero => simp
      | succ m =>
        have hm : m < t.length := by simpa using hj
        simpa using perm_cons_getElem_set t m hm a
    | succ n =>
      have hn : n < t.length := by simpa using hi
      cases j with
      | zero =>
        simpa using perm_cons_getElem_set t n hn a
      | succ m =>
        have hm : m < t.length := by simpa using hj
        simpa using List.Perm.cons a (ih n m hn hm)

/-- Array.swap permutes the underlying list. -/
theorem toList_swap_perm {α : Type} (a : Array α) (i j : Fin a.size) :
    List.Perm (a.swap i j).toList a.toList := by
  rw [Array.toList_swap]
  have hi : (i : Nat) < a.toList.length := by
    simp only [Array.length_toList]
    exact i.2
  have hj : (j : Nat) < a.toList.length := by
    simp only [Array.length_toList]
    exact j.2
  have hgi : a.get i = a.toList.get ⟨i, hi⟩ := rfl
  have hgj : a.get j = a.toList.get ⟨j, hj⟩ := rfl
  rw [hgi, hgj]
  exact set_set_perm a.toList i j hi hj

/-- Invariant of the unstable_remove_if loop on the segment between the two
iterators: the prefix up to the returned position rejects p, the suffix up
to the original last satisfies p, positions outside the segment are
untouched, and the array is permuted. -/
theorem unstableRemoveIfAux_spec {α : Type} (p : α → Bool) (a : Array α)
    (first last : Nat) :
    first ≤ last → last ≤ a.size →
    (unstableRemoveIfAux p a first last).1.size = a.size ∧
    first ≤ (unstableRemoveIfAux p a first last).2 ∧
    (unstableRemoveIfAux p a first last).2 ≤ last ∧
    (∀ i : Nat, i < first ∨ last ≤ i →
      (unstableRemoveIfAux p a first last).1[i]? = a[i]?) ∧
    (∀ i : Nat, first ≤ i → i < (unstableRemoveIfAux p a first last).2 →
      ∀ x, (unstableRemoveIfAux p a first last).1[i]? = some x →
        p x = false) ∧
    (∀ i : Nat, (unstableRemoveIfAux p a first last).2 ≤ i → i < last →
      ∀ x, (unstableRemoveIfAux p a first last).1[i]? = some x →
        p x = true) ∧
    List.Perm (unstableRemoveIfAux p a first last).1.toList a.toList := by
  induction a, first, last using unstableRemoveIfAux.induct p with
  | case1 a first last h hp ihr =>
    intro h1 h2
    rw [unstableRemoveIfAux, dif_pos h, if_pos hp]
    have hsz : (a.swap ⟨first, Nat.lt_of_lt_of_le h.1 h.2⟩
        ⟨last - 1, Nat.lt_of_lt_of_le (by omega) h.2⟩).size = a.size :=
      Array.size_swap _ _ _
    obtain ⟨Hsz, Hf, Hl, Hout, Hfalse, Htrue, Hperm⟩ :=
      ihr (by omega) (by rw [hsz]; omega)
    refine ⟨Hsz.trans hsz, Hf, by omega, ?_, Hfalse, ?_, ?_⟩
    · intro i hi
      rw [Hout i (by omega)]
      rw [Array.getElem?_swap]
      rw [if_neg (by simp; omega), if_neg (by simp; omega)]
    · intro i hge hlt x hx
      by_cases hil : i < last - 1
      · exact Htrue i hge hil x hx
      · have hie : i = last - 1 := by omega
        subst hie
        rw [Hout (last - 1) (by omega), Array.getElem?_swap,
          if_pos (by simp)] at hx
        have hxe : x = a[first] := by
          injection hx with hx2
          exact hx2.symm
        subst hxe
        exact hp
    · exact Hperm.trans (toList_swap_perm a _ _)
  | case2 a first last h hp ihr =>
    intro h1 h2
    rw [unstableRemoveIfAux, dif_pos h, if_neg hp]
    obtain ⟨Hsz, Hf, Hl, Hout, Hfalse, Htrue, Hperm⟩ := ihr (by omega) h2
    refine ⟨Hsz, by omega, Hl, ?_, ?_, Htrue, Hperm⟩
    · intro i hi
      exact Hout i (by omega)
    · intro i hge hlt x hx
      by_cases hif : first + 1 ≤ i
      · exact Hfalse i hif hlt x hx
      · have hie : i = first := by omega
        subst hie
        rw [Hout i (by omega),
          Array.getElem?_eq_getElem (by omega)] at hx
        have hxe : x = a[i] := by
          injection hx with hx2
          exact hx2.symm
        subst hxe
        simpa using hp
  | case3 a first last h =>
    intro h1 h2
    rw [unstableRemoveIfAux, dif_neg h]
    refine ⟨rfl, Nat.le_refl _, by omega, fun i _ => rfl, ?_, ?_,
      List.Perm.refl _⟩
    · intro i hge hlt
      exact absurd hlt (by omega)
    · intro i hge hlt
      exact absurd hlt (by omega)

/-- The partition contract of unstable_remove_if over a whole vector. -/
theorem unstable_remove_if_spec {α : Type} (p : α → Bool) (a : Array α) :
    (unstable_remove_if p a).1.size = a.size ∧
    (unstable_remove_if p a).2 ≤ a.size ∧
    (∀ i : Nat, i < (unstable_remove_if p a).2 →
      ∀ x, (unstable_remove_if p a).1[i]? = some x → p x = false) ∧
    (∀ i : Nat, (unstable_remove_if p a).2 ≤ i → i < a.size →
      ∀ x, (unstable_remove_if p a).1[i]? = some x → p x = true) ∧
    List.Perm (unstable_remove_if p a).1.toList a.toList := by
  have h := unstableRemoveIfAux_spec p a 0 a.size (Nat.zero_le _)
    (Nat.le_refl _)
  exact ⟨h.1, h.2.2.1, fun i hi => h.2.2.2.2.1 i (Nat.zero_le _) hi,
    h.2.2.2.2.2.1, h.2.2.2.2.2.2⟩

/-- Membership form of the partition contract: everything the call leaves in
the suffix from mid on satisfies p. -/
theorem unstable_remove_if_drop_mem {α : Type} (p : α → Bool) (a : Array α) :
    ∀ x ∈ (unstable_remove_if p a).1.toList.drop (unstable_remove_if p a).2,
      p x = true := by
  obtain ⟨Hsz, Hmid, Hfalse, Htrue, Hperm⟩ := unstable_remove_if_spec p a
  intro x hx
  rw [List.mem_iff_getElem] at hx
  obtain ⟨i, hil, hi⟩ := hx
  have hlen : (unstable_remove_if p a).1.toList.length = a.size := by
    rw [Array.length_toList, Hsz]
  rw [List.getElem_drop] at hi
  have hib : (unstable_remove_if p a).2 + i < a.size := by
    rw [List.length_drop, hlen] at hil
    omega
  refine Htrue ((unstable_remove_if p a).2 + i) (by omega) hib x ?_
  rw [Array.getElem?_eq_getElem (by omega)]
  rw [← hi]
  congr 1

/-- Membership form of the partition contract for the kept prefix. -/
theorem unstable_remove_if_take_mem {α : Type} (p : α → Bool) (a : Array α) :
    ∀ x ∈ (unstable_remove_if p a).1.toList.take (unstable_remove_if p a).2,
      p x = false := by
  obtain ⟨Hsz, Hmid, Hfalse, Htrue, Hperm⟩ := unstable_remove_if_spec p a
  intro x hx
  rw [List.mem_iff_getElem] at hx
  obtain ⟨i, hil, hi⟩ := hx
  have hlen : (unstable_remove_if p a).1.toList.length = a.size := by
    rw [Array.length_toList, Hsz]
  have hit : i < (unstable_remove_if p a).2 := by
    rw [List.length_take] at hil
    omega
  rw [List.getElem_take] at hi
  refine Hfalse i hit x ?_
  rw [Array.getElem?_eq_getElem (by omega)]
  rw [← hi]
  congr 1

/-- The returned iterator reaches the end exactly when no element of the
input satisfies p. -/
theorem unstable_remove_if_eq_size_iff {α : Type} (p : α → Bool)
    (a : Array α) :
    (unstable_remove_if p a).2 = a.size ↔ ∀ x ∈ a.toList, p x = false := by
  obtain ⟨Hsz, Hmid, Hfalse, Htrue, Hperm⟩ := unstable_remove_if_spec p a
  constructor
  · intro he x hx
    have hx2 : x ∈ (unstable_remove_if p a).1.toList := Hperm.mem_iff.mpr hx
    rw [List.mem_iff_getElem] at hx2
    obtain ⟨i, hil, hi⟩ := hx2
    have hib : i < a.size := by
      rw [Array.length_toList, Hsz] at hil
      omega
    refine Hfalse i (by omega) x ?_
    rw [Array.getElem?_eq_getElem (by rw [Hsz]; exact hib)]
    rw [← hi]
    congr 1
  · intro hall
    by_contra hne
    have hmid : (unstable_remove_if p a).2 < a.size := by omega
    have hib : (unstable_remove_if p a).2 < (unstable_remove_if p a).1.size :=
      by omega
    have hp := Htrue (unstable_remove_if p a).2 (Nat.le_refl _) hmid
      ((unstable_remove_if p a).1[(unstable_remove_if p a).2])
      (Array.getElem?_eq_getElem hib)
    have hmem : (unstable_remove_if p a).1[(unstable_remove_if p a).2] ∈
        a.toList := by
      refine Hperm.mem_iff.mp ?_
      rw [Array.getElem_eq_getElem_toList]
      exact List.getElem_mem _
    rw [hall _ hmem] at hp
    exact Bool.false_ne_true hp

/-- The resolvability test of the while-loop partition in
resolve_derived_pipelines: pipelines.count(basePipelineHandle) != 0, i.e.
the parent hash is a key of the handle map.  Instantiated, like the
resolver below, at the graphics types; the compute instantiation of the
C++ template is identical up to field names. -/
def resolvable_graphics (st : ReplayState) (d : DeferredGraphicsInfo) :
    Bool :=
  (st.graphics_pipelines.lookup d.info.basePipelineHandle).isSome

/-- The enqueue step of the resolver loop body: rewrite basePipelineHandle
to the realized parent handle (pipelines[hash] via operator[]) and call
enqueue_pipeline with the deferred record's own contributes_to_index. -/
def resolve_enqueue_graphics (cfg : ReplayConfig) (st : ReplayState)
    (d : DeferredGraphicsInfo) : ReplayState :=
  let m := mapRef st.graphics_pipelines d.info.basePipelineHandle
  let handle := (m.lookup d.info.basePipelineHandle).getD 0
  let st1 := { st with graphics_pipelines := m }
  (enqueue_pipeline_graphics d.hash
    { d.info with basePipelineHandle := handle } d.contributes_to_index cfg
    st1).2

/-- The while-loop of resolve_derived_pipelines: partition the deferred list
with unstable_remove_if, bail with false when the iterator reached the end
(no resolvable derivative), otherwise sync the workers, enqueue the
resolvable tail and continue on the kept prefix.  The C++ compares the
iterator with end(derived); mid is provably at most the size, so the
size-le-mid test written here is that same comparison in a form whose
termination measure is syntactic. -/
def resolve_derived_graphics_loop (cfg : ReplayConfig)
    (oracle : Nat → Nat → Option Handle)
    (derived : List DeferredGraphicsInfo) (st : ReplayState) :
    Bool × ReplayState :=
  if derived = [] then (true, st)
  else
    if (unstable_remove_if (resolvable_graphics st) derived.toArray).1.size ≤
        (unstable_remove_if (resolvable_graphics st) derived.toArray).2 then
      (false, st)
    else
      resolve_derived_graphics_loop cfg oracle
        ((unstable_remove_if (resolvable_graphics st)
            derived.toArray).1.toList.take
          (unstable_remove_if (resolvable_graphics st) derived.toArray).2)
        (((unstable_remove_if (resolvable_graphics st)
            derived.toArray).1.toList.drop
          (unstable_remove_if (resolvable_graphics st)
            derived.toArray).2).foldl (resolve_enqueue_graphics cfg)
          (sync_worker_threads cfg oracle st))
termination_by derived.length
decreasing_by
  rename_i _hne hprog
  have hs := (unstable_remove_if_spec (resolvable_graphics st)
    derived.toArray).1
  have hsz : derived.toArray.size = derived.length := by simp
  simp only [List.length_take, Array.length_toList]
  omega

/-- One iteration of that while-loop as a step function: none when the loop
would stop (list empty, or no resolvable derivative and the function
returns false), some next state otherwise. -/
def resolve_loop_step (cfg : ReplayConfig)
    (oracle : Nat → Nat → Option Handle)
    (derived : List DeferredGraphicsInfo) (st : ReplayState) :
    Option (List DeferredGraphicsInfo × ReplayState) :=
  if derived = [] then none
  else
    if (unstable_remove_if (resolvable_graphics st) derived.toArray).1.size ≤
        (unstable_remove_if (resolvable_graphics st) derived.toArray).2 then
      none
    else
      some
        (((unstable_remove_if (resolvable_graphics st)
            derived.toArray).1.toList.take
          (unstable_remove_if (resolvable_graphics st) derived.toArray).2),
         (((unstable_remove_if (resolvable_graphics st)
            derived.toArray).1.toList.drop
          (unstable_remove_if (resolvable_graphics st)
            derived.toArray).2).foldl (resolve_enqueue_graphics cfg)
          (sync_worker_threads cfg oracle st)))

/-- States of the resolver loop reachable by iterating its body. -/
inductive ResolveReaches (cfg : ReplayConfig)
    (oracle : Nat → Nat → Option Handle) :
    List DeferredGraphicsInfo × ReplayState →
    List DeferredGraphicsInfo × ReplayState → Prop where
  | refl (s : List DeferredGraphicsInfo × ReplayState) :
      ResolveReaches cfg oracle s s
  | head {s t u : List DeferredGraphicsInfo × ReplayState}
      (hstep : resolve_loop_step cfg oracle s.1 s.2 = some t)
      (htail : ResolveReaches cfg oracle t u) : ResolveReaches cfg oracle s u

/-- The prologue of resolve_derived_pipelines: for each deferred record
whose parent hash is stashed in potential_parent, enqueue that parent (with
its stored contributes_to_index, which is false) and erase it from the
stash. -/
def resolve_inject_graphics_parents (cfg : ReplayConfig)
    (derived : List DeferredGraphicsInfo)
    (pp : List (Hash × DeferredGraphicsInfo)) (st : ReplayState) :
    List (Hash × DeferredGraphicsInfo) × ReplayState :=
  derived.foldl
    (fun acc d =>
      match acc.1.lookup d.info.basePipelineHandle with
      | some e =>
        (assocErase acc.1 d.info.basePipelineHandle,
         (enqueue_pipeline_graphics e.hash e.info e.contributes_to_index cfg
           acc.2).2)
      | none => acc)
    (pp, st)

/-- ThreadedReplayer::resolve_derived_pipelines, graphics instantiation:
inject needed stashed parents, then run the while-loop. -/
def resolve_derived_pipelines_graphics (cfg : ReplayConfig)
    (oracle : Nat → Nat → Option Handle)
    (derived : List DeferredGraphicsInfo)
    (pp : List (Hash × DeferredGraphicsInfo)) (st : ReplayState) :
    Bool × ReplayState :=
  resolve_derived_graphics_loop cfg oracle derived
    (resolve_inject_graphics_parents cfg derived pp st).2

/-- Claim C3: unstable_remove_if splits the range at mid so that no element
before mid satisfies p and every element from mid to the end satisfies p,
while the multiset of elements is unchanged; being a pure function of the
input sequence, the resulting arrangement (and hence the enqueue order of
resolvable derivatives read off the partitioned suffix) is deterministic at
fixed input. -/
theorem unstable_remove_if_partitions {α : Type} (p : α → Bool)
    (a : Array α) :
    (unstable_remove_if p a).1.size = a.size ∧
    (unstable_remove_if p a).2 ≤ a.size ∧
    (∀ x ∈ (unstable_remove_if p a).1.toList.take (unstable_remove_if p a).2,
      p x = false) ∧
    (∀ x ∈ (unstable_remove_if p a).1.toList.drop (unstable_remove_if p a).2,
      p x = true) ∧
    List.Perm (unstable_remove_if p a).1.toList a.toList := by
  obtain ⟨h1, h2, _, _, h5⟩ := unstable_remove_if_spec p a
  exact ⟨h1, h2, unstable_remove_if_take_mem p a,
    unstable_remove_if_drop_mem p a, h5⟩

/-- Claim C9: a hash passed to mask_shader_module is in the masked set, and
enqueue_create_shader_module on a masked hash returns true, writes
VK_NULL_HANDLE through the module out-pointer and leaves the state — work
queue, queued_count and shader_modules map included — untouched. -/
theorem enqueue_create_shader_module_masked_spec (hash : Hash)
    (info : ShaderModuleCreateInfo) (st : ReplayState) :
    hash ∈ (mask_shader_module hash st).masked_shader_modules ∧
    (hash ∈ st.masked_shader_modules →
      enqueue_create_shader_module hash info st =
        (true, some VK_NULL_HANDLE, st)) ∧
    enqueue_create_shader_module hash info (mask_shader_module hash st) =
      (true, some VK_NULL_HANDLE, mask_shader_module hash st) := by
  have hmem : hash ∈ (mask_shader_module hash st).masked_shader_modules := by
    rw [mask_shader_module]
    split
    · assumption
    · simp
  have henq : ∀ st2 : ReplayState, hash ∈ st2.masked_shader_modules →
      enqueue_create_shader_module hash info st2 =
        (true, some VK_NULL_HANDLE, st2) := by
    intro st2 h2
    rw [enqueue_create_shader_module, if_pos h2]
  have hmask : (mask_shader_module hash st).masked_shader_modules =
      st.masked_shader_modules ∨
      (mask_shader_module hash st) =
        { st with masked_shader_modules :=
            st.masked_shader_modules ++ [hash] } := by
    rw [mask_shader_module]
    split
    · exact Or.inl rfl
    · exact Or.inr rfl
  exact ⟨hmem, henq st, henq _ hmem⟩

/-- Claim C4: a non-derivative graphics record inside the slice with a null
shader-module reference is still enqueued, but with null create_info and
hash_map_entry; the worker popping it advances its pipeline index (the item
contributes), bumps the control block's skipped counter, performs no create
work, and the graphics_pipelines map gains no entry for the hash. -/
theorem enqueue_create_graphics_pipeline_null_module_spec (hash : Hash)
    (info : GraphicsPipelineCreateInfo) (cfg : ReplayConfig)
    (st : ReplayState)
    (hnd : hasFlag info.flags VK_PIPELINE_CREATE_DERIVATIVE_BIT = false)
    (hin : cfg.start_graphics_index ≤ st.graphics_pipeline_index ∧
      st.graphics_pipeline_index < cfg.end_graphics_index)
    (hnull : VK_NULL_HANDLE ∈ info.stageModules)
    (hcb : cfg.control_block = true) :
    (enqueue_create_graphics_pipeline hash info cfg st).2.2.pipeline_work_queue
      = st.pipeline_work_queue ++
        [{ hash := hash, tag := RESOURCE_GRAPHICS_PIPELINE,
           contributes_to_index := true, create_info := none,
           hash_map_entry := none }] ∧
    (enqueue_create_graphics_pipeline hash info cfg st).2.2.queued_count =
      st.queued_count + 1 ∧
    (enqueue_create_graphics_pipeline hash info cfg st).2.2.graphics_pipelines
      = st.graphics_pipelines ∧
    (∀ (oracle : Nat → Option Handle) (st2 : ReplayState),
      (worker_process_work_item cfg oracle st2
          { hash := hash, tag := RESOURCE_GRAPHICS_PIPELINE,
            contributes_to_index := true, create_info := none,
            hash_map_entry := none }).thread_current_graphics_index =
        st2.thread_current_graphics_index + 1 ∧
      (worker_process_work_item cfg oracle st2
          { hash := hash, tag := RESOURCE_GRAPHICS_PIPELINE,
            contributes_to_index := true, create_info := none,
            hash_map_entry := none }).skipped_graphics =
        st2.skipped_graphics + 1 ∧
      (worker_process_work_item cfg oracle st2
          { hash := hash, tag := RESOURCE_GRAPHICS_PIPELINE,
            contributes_to_index := true, create_info := none,
            hash_map_entry := none }).graphics_pipelines =
        st2.graphics_pipelines ∧
      (worker_process_work_item cfg oracle st2
          { hash := hash, tag := RESOURCE_GRAPHICS_PIPELINE,
            contributes_to_index := true, create_info := none,
            hash_map_entry := none }).graphics_pipeline_count =
        st2.graphics_pipeline_count ∧
      (worker_process_work_item cfg oracle st2
          { hash := hash, tag := RESOURCE_GRAPHICS_PIPELINE,
            contributes_to_index := true, create_info := none,
            hash_map_entry := none }).successful_graphics =
        st2.successful_graphics) := by
  have hv : info.stageModules.all (fun m => m != VK_NULL_HANDLE) = false := by
    cases hAll : info.stageModules.all (fun m => m != VK_NULL_HANDLE)
    · rfl
    · exfalso
      rw [List.all_eq_true] at hAll
      have := hAll _ hnull
      simp at this
  refine ⟨?_, ?_, ?_, ?_⟩
  · simp [enqueue_create_graphics_pipeline, hnd, hv, hin.1, hin.2,
      push_work_item]
  · simp [enqueue_create_graphics_pipeline, hnd, hv, hin.1, hin.2,
      push_work_item]
  · simp [enqueue_create_graphics_pipeline, hnd, hv, hin.1, hin.2,
      push_work_item]
  · intro oracle st2
    refine ⟨?_, ?_, ?_, ?_, ?_⟩ <;>
      simp [worker_process_work_item, hcb]

/-- The state of a freshly constructed ThreadedReplayer. -/
def initialReplayState : ReplayState := {}

/-- Example slice configuration putting index 0 outside the slice [1, 2). -/
def exampleSliceCfg : ReplayConfig :=
  { start_graphics_index := 1, end_graphics_index := 2,
    control_block := true }

/-- Example graphics create info with a null first stage module. -/
def exampleNullStageInfo : GraphicsPipelineCreateInfo :=
  { flags := 0, basePipelineHandle := 0, stageModules := [0, 3] }

/-- Example in-slice configuration for the whole index range. -/
def exampleFullSliceCfg : ReplayConfig :=
  { control_block := true }

/-- Witness for C4 at a concrete record, configuration and state. -/
theorem enqueue_create_graphics_pipeline_null_module_spec_witness :
    hasFlag exampleNullStageInfo.flags VK_PIPELINE_CREATE_DERIVATIVE_BIT =
      false ∧
    (exampleFullSliceCfg.start_graphics_index ≤
      initialReplayState.graphics_pipeline_index ∧
      initialReplayState.graphics_pipeline_index <
        exampleFullSliceCfg.end_graphics_index) ∧
    VK_NULL_HANDLE ∈ exampleNullStageInfo.stageModules ∧
    exampleFullSliceCfg.control_block = true ∧
    (enqueue_create_graphics_pipeline 11 exampleNullStageInfo
        exampleFullSliceCfg initialReplayState).2.2.queued_count =
      initialReplayState.queued_count + 1 := by
  refine ⟨by decide, by decide, by decide, by decide, ?_⟩
  exact (enqueue_create_graphics_pipeline_null_module_spec 11
    exampleNullStageInfo exampleFullSliceCfg initialReplayState (by decide)
    (by decide) (by decide) (by decide)).2.1

/-- Claim C5: a non-derivative record outside the slice is stashed into
potential_graphics_parent exactly when it allows derivatives (and then with
contributes_to_index false), its out-handle is written VK_NULL_HANDLE and no
work item is pushed; enqueue_pipeline with contributes_to_index false never
advances either the graphics or the compute pipeline index, so injected
parents never advance the slice. -/
theorem enqueue_create_graphics_pipeline_outside_slice_spec (hash : Hash)
    (info : GraphicsPipelineCreateInfo) (cfg : ReplayConfig)
    (st : ReplayState)
    (hnd : hasFlag info.flags VK_PIPELINE_CREATE_DERIVATIVE_BIT = false)
    (hout : st.graphics_pipeline_index < cfg.start_graphics_index ∨
      cfg.end_graphics_index ≤ st.graphics_pipeline_index) :
    (enqueue_create_graphics_pipeline hash info cfg st).1 = true ∧
    (enqueue_create_graphics_pipeline hash info cfg st).2.1 =
      some VK_NULL_HANDLE ∧
    (hasFlag info.flags VK_PIPELINE_CREATE_ALLOW_DERIVATIVES_BIT = true →
      (enqueue_create_graphics_pipeline hash info cfg
          st).2.2.potential_graphics_parent =
        assocSet st.potential_graphics_parent hash ⟨info, hash, false⟩) ∧
    (hasFlag info.flags VK_PIPELINE_CREATE_ALLOW_DERIVATIVES_BIT = false →
      (enqueue_create_graphics_pipeline hash info cfg
          st).2.2.potential_graphics_parent =
        st.potential_graphics_parent) ∧
    (enqueue_create_graphics_pipeline hash info cfg
        st).2.2.pipeline_work_queue = st.pipeline_work_queue ∧
    (∀ (h2 : Hash) (i2 : GraphicsPipelineCreateInfo) (st2 : ReplayState),
      (enqueue_pipeline_graphics h2 i2 false cfg
          st2).2.graphics_pipeline_index = st2.graphics_pipeline_index) ∧
    (∀ (h2 : Hash) (i2 : ComputePipelineCreateInfo) (st2 : ReplayState),
      (enqueue_pipeline_compute h2 i2 false cfg
          st2).2.compute_pipeline_index = st2.compute_pipeline_index) ∧
    (∀ (derived : List DeferredGraphicsInfo)
        (pp : List (Hash × DeferredGraphicsInfo)) (st2 : ReplayState),
      (∀ e ∈ pp, (Prod.snd e).contributes_to_index = false) →
      (resolve_inject_graphics_parents cfg derived pp
          st2).2.graphics_pipeline_index = st2.graphics_pipeline_index) := by
  have hslice : ¬ (cfg.start_graphics_index ≤ st.graphics_pipeline_index ∧
      st.graphics_pipeline_index < cfg.end_graphics_index) := by omega
  have hgfalse : ∀ (h2 : Hash) (i2 : GraphicsPipelineCreateInfo)
      (st2 : ReplayState),
      (enqueue_pipeline_graphics h2 i2 false cfg
          st2).2.graphics_pipeline_index = st2.graphics_pipeline_index := by
    intro h2 i2 st2
    simp [enqueue_pipeline_graphics, push_work_item]
    split <;> rfl
  refine ⟨?_, ?_, ?_, ?_, ?_, hgfalse, ?_, ?_⟩
  · simp [enqueue_create_graphics_pipeline, hnd, hslice]
  · simp [enqueue_create_graphics_pipeline, hnd, hslice]
  · intro hallow
    simp [enqueue_create_graphics_pipeline, hnd, hslice, hallow]
  · intro hallow
    simp [enqueue_create_graphics_pipeline, hnd, hslice, hallow]
  · simp [enqueue_create_graphics_pipeline, hnd, hslice]
    split <;> rfl
  · intro h2 i2 st2
    simp [enqueue_pipeline_compute, push_work_item]
    split <;> rfl
  · intro derived pp st2 hpp
    rw [resolve_inject_graphics_parents]
    have key : ∀ (ds : List DeferredGraphicsInfo)
        (acc : List (Hash × DeferredGraphicsInfo) × ReplayState),
        (∀ e ∈ acc.1, (Prod.snd e).contributes_to_index = false) →
        (ds.foldl
          (fun acc d =>
            match acc.1.lookup d.info.basePipelineHandle with
            | some e =>
              (assocErase acc.1 d.info.basePipelineHandle,
               (enqueue_pipeline_graphics e.hash e.info
                 e.contributes_to_index cfg acc.2).2)
            | none => acc)
          acc).2.graphics_pipeline_index = acc.2.graphics_pipeline_index := by
      intro ds
      induction ds with
      | nil =>
        intro acc hacc
        rfl
      | cons d ds ih =>
        intro acc hacc
        simp only [List.foldl_cons]
        cases hl : acc.1.lookup d.info.basePipelineHandle with
        | none =>
          simp only [hl]
          exact ih acc hacc
        | some e =>
          have hmem : (d.info.basePipelineHandle, e) ∈ acc.1 := by
            obtain ⟨l₁, l₂, hsplit, _⟩ := List.lookup_eq_some_iff.mp hl
            rw [hsplit]
            simp
          have he : e.contributes_to_index = false := hacc _ hmem
          simp only [hl]
          rw [ih _ ?_]
          · rw [he, hgfalse]
          · intro e2 he2
            refine hacc e2 (List.mem_of_mem_filter he2)
    exact key derived (pp, st2) hpp

/-- A fold whose every step leaves an observation unchanged leaves it
unchanged overall. -/
theorem foldl_preserves {σ β γ : Type} (P : σ → γ) (f : σ → β → σ)
    (h : ∀ s b, P (f s b) = P s) :
    ∀ (l : List β) (s : σ), P (l.foldl f s) = P s := by
  intro l
  induction l with
  | nil =>
    intro s
    rfl
  | cons b l ih =>
    intro s
    rw [List.foldl_cons, ih, h]

/-- Iterations after the first never touch successful_graphics. -/
theorem worker_graphics_iter_successful_of_ne (cfg : ReplayConfig)
    (c : Bool) (entry : Option Hash) (oracle : Nat → Option Handle)
    (i : Nat) (hi : i ≠ 0) (st : ReplayState) :
    (worker_graphics_iter cfg c entry oracle st i).successful_graphics =
      st.successful_graphics := by
  rw [worker_graphics_iter.eq_def]
  cases ho : oracle i with
  | none =>
    cases entry <;> rfl
  | some v =>
    simp only
    rw [if_neg (by simp [hi])]
    cases entry <;> cases c <;> rfl

/-- The first iteration bumps successful_graphics exactly when the control
block is present, the item contributes, and the create call succeeds. -/
theorem worker_graphics_iter_successful_zero (cfg : ReplayConfig) (c : Bool)
    (entry : Option Hash) (oracle : Nat → Option Handle) (st : ReplayState) :
    (worker_graphics_iter cfg c entry oracle st 0).successful_graphics =
      st.successful_graphics +
        (if cfg.control_block = true ∧ c = true ∧ (oracle 0).isSome = true
          then 1 else 0) := by
  rw [worker_graphics_iter.eq_def]
  cases ho : oracle 0 with
  | none =>
    rw [if_neg (by simp [ho])]
    cases entry <;> rfl
  | some v =>
    simp only
    cases hcb : cfg.control_block <;> cases c <;>
      simp [hcb, ho] <;> cases entry <;> rfl

/-- The create loop of a graphics work item bumps successful_graphics at
most once, on iteration 0 only. -/
theorem worker_graphics_fold_successful (cfg : ReplayConfig) (c : Bool)
    (entry : Option Hash) (oracle : Nat → Option Handle) (n : Nat)
    (st : ReplayState) :
    ((List.range n).foldl (worker_graphics_iter cfg c entry oracle)
        st).successful_graphics =
      st.successful_graphics +
        (if cfg.control_block = true ∧ c = true ∧ 1 ≤ n ∧
            (oracle 0).isSome = true then 1 else 0) := by
  cases n with
  | zero =>
    simp
  | succ m =>
    rw [List.range_succ_eq_map, List.foldl_cons, List.foldl_map]
    rw [foldl_preserves (fun s => s.successful_graphics)
      (fun s x => worker_graphics_iter cfg c entry oracle s (Nat.succ x))
      (fun s x => worker_graphics_iter_successful_of_ne cfg c entry oracle
        (Nat.succ x) (Nat.succ_ne_zero x) s)]
    rw [worker_graphics_iter_successful_zero]
    have hn : 1 ≤ m + 1 := by omega
    by_cases h1 : cfg.control_block = true ∧ c = true ∧
        (oracle 0).isSome = true
    · rw [if_pos h1, if_pos ⟨h1.1, h1.2.1, hn, h1.2.2⟩]
    · rw [if_neg h1, if_neg (by tauto)]

/-- Iterations after the first never touch successful_compute. -/
theorem worker_compute_iter_successful_of_ne (cfg : ReplayConfig)
    (c : Bool) (entry : Option Hash) (oracle : Nat → Option Handle)
    (i : Nat) (hi : i ≠ 0) (st : ReplayState) :
    (worker_compute_iter cfg c entry oracle st i).successful_compute =
      st.successful_compute := by
  rw [worker_compute_iter.eq_def]
  cases ho : oracle i with
  | none =>
    cases entry <;> rfl
  | some v =>
    simp only
    rw [if_neg (by simp [hi])]
    cases entry <;> cases c <;> rfl

/-- The first iteration of the compute loop, analogously. -/
theorem worker_compute_iter_successful_zero (cfg : ReplayConfig) (c : Bool)
    (entry : Option Hash) (oracle : Nat → Option Handle) (st : ReplayState) :
    (worker_compute_iter cfg c entry oracle st 0).successful_compute =
      st.successful_compute +
        (if cfg.control_block = true ∧ c = true ∧ (oracle 0).isSome = true
          then 1 else 0) := by
  rw [worker_compute_iter.eq_def]
  cases ho : oracle 0 with
  | none =>
    rw [if_neg (by simp [ho])]
    cases entry <;> rfl
  | some v =>
    simp only
    cases hcb : cfg.control_block <;> cases c <;>
      simp [hcb, ho] <;> cases entry <;> rfl

/-- The create loop of a compute work item bumps successful_compute at most
once, on iteration 0 only. -/
theorem worker_compute_fold_successful (cfg : ReplayConfig) (c : Bool)
    (entry : Option Hash) (oracle : Nat → Option Handle) (n : Nat)
    (st : ReplayState) :
    ((List.range n).foldl (worker_compute_iter cfg c entry oracle)
        st).successful_compute =
      st.successful_compute +
        (if cfg.control_block = true ∧ c = true ∧ 1 ≤ n ∧
            (oracle 0).isSome = true then 1 else 0) := by
  cases n with
  | zero =>
    simp
  | succ m =>
    rw [List.range_succ_eq_map, List.foldl_cons, List.foldl_map]
    rw [foldl_preserves (fun s => s.successful_compute)
      (fun s x => worker_compute_iter cfg c entry oracle s (Nat.succ x))
      (fun s x => worker_compute_iter_successful_of_ne cfg c entry oracle
        (Nat.succ x) (Nat.succ_ne_zero x) s)]
    rw [worker_compute_iter_successful_zero]
    have hn : 1 ≤ m + 1 := by omega
    by_cases h1 : cfg.control_block = true ∧ c = true ∧
        (oracle 0).isSome = true
    · rw [if_pos h1, if_pos ⟨h1.1, h1.2.1, hn, h1.2.2⟩]
    · rw [if_neg h1, if_neg (by tauto)]

/-- successful_graphics across one whole graphics work item. -/
theorem worker_process_graphics_successful (cfg : ReplayConfig)
    (oracle : Nat → Option Handle) (st : ReplayState)
    (w : PipelineWorkItem) (ci : GraphicsPipelineCreateInfo)
    (hci : w.create_info = some (CreateInfo.graphics ci))
    (htag : w.tag = RESOURCE_GRAPHICS_PIPELINE)
    (hnb : ¬ (hasFlag ci.flags VK_PIPELINE_CREATE_DERIVATIVE_BIT = true ∧
      ci.basePipelineHandle = VK_NULL_HANDLE)) :
    (worker_process_work_item cfg oracle st w).successful_graphics =
      st.successful_graphics +
        (if cfg.control_block = true ∧ w.contributes_to_index = true ∧
            1 ≤ cfg.loop_count ∧ (oracle 0).isSome = true then 1 else 0) := by
  obtain ⟨whash, wtag, wcontrib, wci, wentry⟩ := w
  simp only at hci htag
  subst hci htag
  simp only [worker_process_work_item]
  rw [if_neg hnb]
  rw [worker_graphics_fold_successful]
  congr 1
  split <;> split <;> rfl

/-- successful_compute across one whole compute work item. -/
theorem worker_process_compute_successful (cfg : ReplayConfig)
    (oracle : Nat → Option Handle) (st : ReplayState)
    (w : PipelineWorkItem) (ci : ComputePipelineCreateInfo)
    (hci : w.create_info = some (CreateInfo.compute ci))
    (htag : w.tag = RESOURCE_COMPUTE_PIPELINE)
    (hnb : ¬ (hasFlag ci.flags VK_PIPELINE_CREATE_DERIVATIVE_BIT = true ∧
      ci.basePipelineHandle = VK_NULL_HANDLE)) :
    (worker_process_work_item cfg oracle st w).successful_compute =
      st.successful_compute +
        (if cfg.control_block = true ∧ w.contributes_to_index = true ∧
            1 ≤ cfg.loop_count ∧ (oracle 0).isSome = true then 1 else 0) := by
  obtain ⟨whash, wtag, wcontrib, wci, wentry⟩ := w
  simp only at hci htag
  subst hci htag
  simp only [worker_process_work_item]
  rw [if_neg hnb]
  rw [worker_compute_fold_successful]
  congr 1
  split <;> split <;> rfl

/-- Claim C6: for a pipeline work item whose create loop runs, the control
block's successful counter is bumped exactly once — when the control block
is present, the item contributes to the index, loop_count is at least one
and the create call of iteration 0 succeeds — and never otherwise: an item
with contributes_to_index false, or an item whose first create fails, adds
nothing no matter how many later iterations succeed, and extra loop
iterations never add more. -/
theorem worker_successful_counter_once (cfg : ReplayConfig)
    (oracle oracleC : Nat → Option Handle) (st : ReplayState)
    (wg wc : PipelineWorkItem) (cig : GraphicsPipelineCreateInfo)
    (cic : ComputePipelineCreateInfo)
    (hcig : wg.create_info = some (CreateInfo.graphics cig))
    (htagg : wg.tag = RESOURCE_GRAPHICS_PIPELINE)
    (hnbg : ¬ (hasFlag cig.flags VK_PIPELINE_CREATE_DERIVATIVE_BIT = true ∧
      cig.basePipelineHandle = VK_NULL_HANDLE))
    (hcic : wc.create_info = some (CreateInfo.compute cic))
    (htagc : wc.tag = RESOURCE_COMPUTE_PIPELINE)
    (hnbc : ¬ (hasFlag cic.flags VK_PIPELINE_CREATE_DERIVATIVE_BIT = true ∧
      cic.basePipelineHandle = VK_NULL_HANDLE)) :
    ((cfg.control_block = true ∧ wg.contributes_to_index = true ∧
        1 ≤ cfg.loop_count ∧ (oracle 0).isSome = true →
      (worker_process_work_item cfg oracle st wg).successful_graphics =
        st.successful_graphics + 1) ∧
     (wg.contributes_to_index = false ∨ oracle 0 = none →
      (worker_process_work_item cfg oracle st wg).successful_graphics =
        st.successful_graphics)) ∧
    ((cfg.control_block = true ∧ wc.contributes_to_index = true ∧
        1 ≤ cfg.loop_count ∧ (oracleC 0).isSome = true →
      (worker_process_work_item cfg oracleC st wc).successful_compute =
        st.successful_compute + 1) ∧
     (wc.contributes_to_index = false ∨ oracleC 0 = none →
      (worker_process_work_item cfg oracleC st wc).successful_compute =
        st.successful_compute)) := by
  have hg := worker_process_graphics_successful cfg oracle st wg cig hcig
    htagg hnbg
  have hc := worker_process_compute_successful cfg oracleC st wc cic hcic
    htagc hnbc
  constructor
  · constructor
    · intro hcond
      rw [hg, if_pos hcond]
    · intro hcond
      rw [hg, if_neg ?_, Nat.add_zero]
      rintro ⟨-, h2, -, h4⟩
      rcases hcond with hfalse | hnone
      · rw [hfalse] at h2
        exact Bool.false_ne_true h2
      · rw [hnone] at h4
        simp at h4
  · constructor
    · intro hcond
      rw [hc, if_pos hcond]
    · intro hcond
      rw [hc, if_neg ?_, Nat.add_zero]
      rintro ⟨-, h2, -, h4⟩
      rcases hcond with hfalse | hnone
      · rw [hfalse] at h2
        exact Bool.false_ne_true h2
      · rw [hnone] at h4
        simp at h4

/-- Example create info of a stashable parent: allows derivatives, not
itself derivative, one valid stage module. -/
def exampleParentInfo : GraphicsPipelineCreateInfo :=
  { flags := 2, basePipelineHandle := 0, stageModules := [3] }

/-- Witness for C5 at a concrete record, slice and state. -/
theorem enqueue_create_graphics_pipeline_outside_slice_spec_witness :
    hasFlag exampleParentInfo.flags VK_PIPELINE_CREATE_DERIVATIVE_BIT =
      false ∧
    (initialReplayState.graphics_pipeline_index <
        exampleSliceCfg.start_graphics_index ∨
      exampleSliceCfg.end_graphics_index ≤
        initialReplayState.graphics_pipeline_index) ∧
    (enqueue_create_graphics_pipeline 21 exampleParentInfo exampleSliceCfg
        initialReplayState).2.2.potential_graphics_parent =
      assocSet initialReplayState.potential_graphics_parent 21
        ⟨exampleParentInfo, 21, false⟩ := by
  refine ⟨by decide, by decide, ?_⟩
  exact (enqueue_create_graphics_pipeline_outside_slice_spec 21
    exampleParentInfo exampleSliceCfg initialReplayState (by decide)
    (by decide)).2.2.1 (by decide)

/-- Example valid graphics create info. -/
def exampleValidInfo : GraphicsPipelineCreateInfo :=
  { flags := 0, basePipelineHandle := 0, stageModules := [3] }

/-- Example valid compute create info. -/
def exampleComputeInfo : ComputePipelineCreateInfo :=
  { flags := 0, basePipelineHandle := 0, stageModule := 3 }

/-- Example graphics work item carrying exampleValidInfo. -/
def exampleGraphicsItem : PipelineWorkItem :=
  { hash := 31, tag := RESOURCE_GRAPHICS_PIPELINE,
    contributes_to_index := true,
    create_info := some (CreateInfo.graphics exampleValidInfo),
    hash_map_entry := some 31 }

/-- Example compute work item carrying exampleComputeInfo. -/
def exampleComputeItem : PipelineWorkItem :=
  { hash := 32, tag := RESOURCE_COMPUTE_PIPELINE,
    contributes_to_index := true,
    create_info := some (CreateInfo.compute exampleComputeInfo),
    hash_map_entry := some 32 }

/-- Oracle on which every device create call succeeds. -/
def exampleOracle : Nat → Option Handle := fun i => some (i + 1)

/-- Witness for C6 at concrete work items. -/
theorem worker_successful_counter_once_witness :
    (worker_process_work_item exampleFullSliceCfg exampleOracle
        initialReplayState exampleGraphicsItem).successful_graphics =
      initialReplayState.successful_graphics + 1 ∧
    (worker_process_work_item exampleFullSliceCfg exampleOracle
        initialReplayState exampleComputeItem).successful_compute =
      initialReplayState.successful_compute + 1 := by
  have h := worker_successful_counter_once exampleFullSliceCfg exampleOracle
    exampleOracle initialReplayState exampleGraphicsItem exampleComputeItem
    exampleValidInfo exampleComputeInfo rfl rfl (by decide) rfl rfl
    (by decide)
  exact ⟨h.1.1 ⟨by decide, by decide, by decide, by decide⟩,
    h.2.1 ⟨by decide, by decide, by decide, by decide⟩⟩

/-- Number of shader_module_count increments one loop iteration of this item
causes when every create call succeeds. -/
def item_shader_delta (w : PipelineWorkItem) : Nat :=
  match w.tag with
  | RESOURCE_SHADER_MODULE => 1
  | _ => 0

/-- Number of graphics_pipeline_count increments one loop iteration of this
item causes when every create call succeeds. -/
def item_graphics_delta (w : PipelineWorkItem) : Nat :=
  match w.tag, w.create_info with
  | RESOURCE_GRAPHICS_PIPELINE, some (CreateInfo.graphics ci) =>
    if hasFlag ci.flags VK_PIPELINE_CREATE_DERIVATIVE_BIT = true ∧
        ci.basePipelineHandle = VK_NULL_HANDLE then 0
    else if w.contributes_to_index = true then 1 else 0
  | _, _ => 0

/-- Number of compute_pipeline_count increments one loop iteration of this
item causes when every create call succeeds. -/
def item_compute_delta (w : PipelineWorkItem) : Nat :=
  match w.tag, w.create_info with
  | RESOURCE_COMPUTE_PIPELINE, some (CreateInfo.compute ci) =>
    if hasFlag ci.flags VK_PIPELINE_CREATE_DERIVATIVE_BIT = true ∧
        ci.basePipelineHandle = VK_NULL_HANDLE then 0
    else if w.contributes_to_index = true then 1 else 0
  | _, _ => 0

/-- Creation counters across one shader-module loop iteration. -/
theorem worker_shader_iter_counts (r : Bool) (h : Hash)
    (entry : Option Hash) (oracle : Nat → Option Handle) (st : ReplayState)
    (i : Nat) :
    ((worker_shader_iter r h entry oracle st i).shader_module_count =
      st.shader_module_count + (if (oracle i).isSome then 1 else 0)) ∧
    ((worker_shader_iter r h entry oracle st i).graphics_pipeline_count =
      st.graphics_pipeline_count) ∧
    ((worker_shader_iter r h entry oracle st i).compute_pipeline_count =
      st.compute_pipeline_count) := by
  cases ho : oracle i <;> cases entry <;> cases r <;>
    simp [worker_shader_iter, ho]

/-- Creation counters across one graphics-pipeline loop iteration. -/
theorem worker_graphics_iter_counts (cfg : ReplayConfig) (c : Bool)
    (entry : Option Hash) (oracle : Nat → Option Handle) (st : ReplayState)
    (i : Nat) :
    ((worker_graphics_iter cfg c entry oracle st i).graphics_pipeline_count =
      st.graphics_pipeline_count +
        (if (oracle i).isSome ∧ c = true then 1 else 0)) ∧
    ((worker_graphics_iter cfg c entry oracle st i).shader_module_count =
      st.shader_module_count) ∧
    ((worker_graphics_iter cfg c entry oracle st i).compute_pipeline_count =
      st.compute_pipeline_count) := by
  rw [worker_graphics_iter.eq_def]
  cases ho : oracle i <;> cases entry <;> cases c <;> simp only [ho] <;>
    refine ⟨?_, ?_, ?_⟩ <;> first
      | rfl
      | (split <;> rfl)
      | simp

/-- Creation counters across one compute-pipeline loop iteration. -/
theorem worker_compute_iter_counts (cfg : ReplayConfig) (c : Bool)
    (entry : Option Hash) (oracle : Nat → Option Handle) (st : ReplayState)
    (i : Nat) :
    ((worker_compute_iter cfg c entry oracle st i).compute_pipeline_count =
      st.compute_pipeline_count +
        (if (oracle i).isSome ∧ c = true then 1 else 0)) ∧
    ((worker_compute_iter cfg c entry oracle st i).shader_module_count =
      st.shader_module_count) ∧
    ((worker_compute_iter cfg c entry oracle st i).graphics_pipeline_count =
      st.graphics_pipeline_count) := by
  rw [worker_compute_iter.eq_def]
  cases ho : oracle i <;> cases entry <;> cases c <;> simp only [ho] <;>
    refine ⟨?_, ?_, ?_⟩ <;> first
      | rfl
      | (split <;> rfl)
      | simp

/-- Creation counters across the whole shader-module create loop when every
create succeeds. -/
theorem fold_shader_counts (r : Bool) (h : Hash) (entry : Option Hash)
    (oracle : Nat → Option Handle) (hs : ∀ i, (oracle i).isSome) :
    ∀ (l : List Nat) (st : ReplayState),
    ((l.foldl (worker_shader_iter r h entry oracle) st).shader_module_count =
      st.shader_module_count + l.length) ∧
    ((l.foldl (worker_shader_iter r h entry oracle)
        st).graphics_pipeline_count = st.graphics_pipeline_count) ∧
    ((l.foldl (worker_shader_iter r h entry oracle)
        st).compute_pipeline_count = st.compute_pipeline_count) := by
  intro l
  induction l with
  | nil =>
    intro st
    simp
  | cons i l ih =>
    intro st
    rw [List.foldl_cons]
    obtain ⟨e1, e2, e3⟩ := ih (worker_shader_iter r h entry oracle st i)
    obtain ⟨f1, f2, f3⟩ := worker_shader_iter_counts r h entry oracle st i
    rw [if_pos (hs i)] at f1
    refine ⟨?_, ?_, ?_⟩
    · rw [e1, f1]
      simp
      omega
    · rw [e2, f2]
    · rw [e3, f3]

/-- Creation counters across the whole graphics create loop when every
create succeeds. -/
theorem fold_graphics_counts (cfg : ReplayConfig) (c : Bool)
    (entry : Option Hash) (oracle : Nat → Option Handle)
    (hs : ∀ i, (oracle i).isSome) :
    ∀ (l : List Nat) (st : ReplayState),
    ((l.foldl (worker_graphics_iter cfg c entry oracle)
        st).graphics_pipeline_count =
      st.graphics_pipeline_count + l.length * (if c = true then 1 else 0)) ∧
    ((l.foldl (worker_graphics_iter cfg c entry oracle)
        st).shader_module_count = st.shader_module_count) ∧
    ((l.foldl (worker_graphics_iter cfg c entry oracle)
        st).compute_pipeline_count = st.compute_pipeline_count) := by
  intro l
  induction l with
  | nil =>
    intro st
    simp
  | cons i l ih =>
    intro st
    rw [List.foldl_cons]
    obtain ⟨e1, e2, e3⟩ := ih (worker_graphics_iter cfg c entry oracle st i)
    obtain ⟨f1, f2, f3⟩ := worker_graphics_iter_counts cfg c entry oracle st i
    refine ⟨?_, ?_, ?_⟩
    · rw [e1, f1]
      cases c
      · simp
      · simp [hs i]
        omega
    · rw [e2, f2]
    · rw [e3, f3]

/-- Creation counters across the whole compute create loop when every create
succeeds. -/
theorem fold_compute_counts (cfg : ReplayConfig) (c : Bool)
    (entry : Option Hash) (oracle : Nat → Option Handle)
    (hs : ∀ i, (oracle i).isSome) :
    ∀ (l : List Nat) (st : ReplayState),
    ((l.foldl (worker_compute_iter cfg c entry oracle)
        st).compute_pipeline_count =
      st.compute_pipeline_count + l.length * (if c = true then 1 else 0)) ∧
    ((l.foldl (worker_compute_iter cfg c entry oracle)
        st).shader_module_count = st.shader_module_count) ∧
    ((l.foldl (worker_compute_iter cfg c entry oracle)
        st).graphics_pipeline_count = st.graphics_pipeline_count) := by
  intro l
  induction l with
  | nil =>
    intro st
    simp
  | cons i l ih =>
    intro st
    rw [List.foldl_cons]
    obtain ⟨e1, e2, e3⟩ := ih (worker_compute_iter cfg c entry oracle st i)
    obtain ⟨f1, f2, f3⟩ := worker_compute_iter_counts cfg c entry oracle st i
    refine ⟨?_, ?_, ?_⟩
    · rw [e1, f1]
      cases c
      · simp
      · simp [hs i]
        omega
    · rw [e2, f2]
    · rw [e3, f3]

/-- Creation counters across one whole work item when every create call
succeeds: each counter grows by loop_count times the item's per-iteration
delta. -/
theorem worker_process_work_item_counts (cfg : ReplayConfig)
    (oracle : Nat → Option Handle) (st : ReplayState) (w : PipelineWorkItem)
    (hs : ∀ i, (oracle i).isSome) :
    ((worker_process_work_item cfg oracle st w).shader_module_count =
      st.shader_module_count + cfg.loop_count * item_shader_delta w) ∧
    ((worker_process_work_item cfg oracle st w).graphics_pipeline_count =
      st.graphics_pipeline_count + cfg.loop_count * item_graphics_delta w) ∧
    ((worker_process_work_item cfg oracle st w).compute_pipeline_count =
      st.compute_pipeline_count + cfg.loop_count * item_compute_delta w) := by
  obtain ⟨wh, wtag, wc, wci, wentry⟩ := w
  cases wtag with
  | RESOURCE_SHADER_MODULE =>
    have hfold := fold_shader_counts cfg.robustness wh wentry oracle hs
      (List.range cfg.loop_count) st
    simp only [worker_process_work_item, item_shader_delta,
      item_graphics_delta, item_compute_delta]
    exact ⟨by rw [hfold.1]; simp, by rw [hfold.2.1]; simp,
      by rw [hfold.2.2]; simp⟩
  | RESOURCE_GRAPHICS_PIPELINE =>
    cases wci with
    | none =>
      simp only [worker_process_work_item, item_shader_delta,
        item_graphics_delta, item_compute_delta]
      refine ⟨?_, ?_, ?_⟩ <;> simp <;> split <;> split <;> rfl
    | some ci0 =>
      cases ci0 with
      | graphics ci =>
        have hfold := fold_graphics_counts cfg wc wentry oracle hs
          (List.range cfg.loop_count)
        by_cases hb : hasFlag ci.flags VK_PIPELINE_CREATE_DERIVATIVE_BIT =
            true ∧ ci.basePipelineHandle = VK_NULL_HANDLE
        · simp only [worker_process_work_item]
          rw [if_pos hb]
          refine ⟨?_, ?_, ?_⟩ <;>
            · simp [item_shader_delta, item_graphics_delta,
                item_compute_delta, hb.1, hb.2]
              repeat' split
              all_goals simp
        · simp only [worker_process_work_item]
          rw [if_neg hb]
          refine ⟨?_, ?_, ?_⟩ <;>
            · simp [item_shader_delta, item_graphics_delta,
                item_compute_delta, hb, hfold]
              repeat' split
              all_goals simp
      | compute ci =>
        simp only [worker_process_work_item, item_shader_delta,
          item_graphics_delta, item_compute_delta]
        refine ⟨?_, ?_, ?_⟩ <;> simp <;> split <;> split <;> rfl
      | shader_module ci =>
        simp only [worker_process_work_item, item_shader_delta,
          item_graphics_delta, item_compute_delta]
        refine ⟨?_, ?_, ?_⟩ <;> simp <;> split <;> split <;> rfl
  | RESOURCE_COMPUTE_PIPELINE =>
    cases wci with
    | none =>
      simp only [worker_process_work_item, item_shader_delta,
        item_graphics_delta, item_compute_delta]
      refine ⟨?_, ?_, ?_⟩ <;> simp <;> split <;> split <;> rfl
    | some ci0 =>
      cases ci0 with
      | compute ci =>
        have hfold := fold_compute_counts cfg wc wentry oracle hs
          (List.range cfg.loop_count)
        by_cases hb : hasFlag ci.flags VK_PIPELINE_CREATE_DERIVATIVE_BIT =
            true ∧ ci.basePipelineHandle = VK_NULL_HANDLE
        · simp only [worker_process_work_item]
          rw [if_pos hb]
          refine ⟨?_, ?_, ?_⟩ <;>
            · simp [item_shader_delta, item_graphics_delta,
                item_compute_delta, hb.1, hb.2]
              repeat' split
              all_goals simp
        · simp only [worker_process_work_item]
          rw [if_neg hb]
          refine ⟨?_, ?_, ?_⟩ <;>
            · simp [item_shader_delta, item_graphics_delta,
                item_compute_delta, hb, hfold]
              repeat' split
              all_goals simp
      | graphics ci =>
        simp only [worker_process_work_item, item_shader_delta,
          item_graphics_delta, item_compute_delta]
        refine ⟨?_, ?_, ?_⟩ <;> simp <;> split <;> split <;> rfl
      | shader_module ci =>
        simp only [worker_process_work_item, item_shader_delta,
          item_graphics_delta, item_compute_delta]
        refine ⟨?_, ?_, ?_⟩ <;> simp <;> split <;> split <;> rfl
  | RESOURCE_APPLICATION_INFO =>
    simp [worker_process_work_item, item_shader_delta, item_graphics_delta,
      item_compute_delta]
  | RESOURCE_SAMPLER =>
    simp [worker_process_work_item, item_shader_delta, item_graphics_delta,
      item_compute_delta]
  | RESOURCE_DESCRIPTOR_SET_LAYOUT =>
    simp [worker_process_work_item, item_shader_delta, item_graphics_delta,
      item_compute_delta]
  | RESOURCE_PIPELINE_LAYOUT =>
    simp [worker_process_work_item, item_shader_delta, item_graphics_delta,
      item_compute_delta]
  | RESOURCE_RENDER_PASS =>
    simp [worker_process_work_item, item_shader_delta, item_graphics_delta,
      item_compute_delta]
  | RESOURCE_COUNT =>
    simp [worker_process_work_item, item_shader_delta, item_graphics_delta,
      item_compute_delta]

/-- A store through a map slot never changes the key set. -/
theorem mapKeys_mapWrite (m : List (Nat × Nat)) (key v : Nat) :
    mapKeys (mapWrite m key v) = mapKeys m := by
  rw [mapKeys, mapWrite, List.map_map, mapKeys]
  apply List.map_congr_left
  intro kv _
  by_cases h : kv.1 = key <;> simp [h]

/-- One shader-module loop iteration: shader map keys preserved, pipeline
maps untouched. -/
theorem worker_shader_iter_keys (r : Bool) (h : Hash) (entry : Option Hash)
    (oracle : Nat → Option Handle) (st : ReplayState) (i : Nat) :
    (mapKeys (worker_shader_iter r h entry oracle st i).shader_modules =
      mapKeys st.shader_modules) ∧
    ((worker_shader_iter r h entry oracle st i).graphics_pipelines =
      st.graphics_pipelines) ∧
    ((worker_shader_iter r h entry oracle st i).compute_pipelines =
      st.compute_pipelines) := by
  cases ho : oracle i <;> cases entry <;> cases r <;>
    simp [worker_shader_iter, ho, mapKeys_mapWrite]

/-- One graphics loop iteration: graphics map keys preserved, other maps
untouched. -/
theorem worker_graphics_iter_keys (cfg : ReplayConfig) (c : Bool)
    (entry : Option Hash) (oracle : Nat → Option Handle) (st : ReplayState)
    (i : Nat) :
    (mapKeys (worker_graphics_iter cfg c entry oracle st i).graphics_pipelines
      = mapKeys st.graphics_pipelines) ∧
    ((worker_graphics_iter cfg c entry oracle st i).shader_modules =
      st.shader_modules) ∧
    ((worker_graphics_iter cfg c entry oracle st i).compute_pipelines =
      st.compute_pipelines) := by
  cases ho : oracle i <;> cases entry <;> cases c <;>
    simp [worker_graphics_iter, ho, mapKeys_mapWrite] <;>
    repeat' split <;> simp [mapKeys_mapWrite]

/-- One compute loop iteration: compute map keys preserved, other maps
untouched. -/
theorem worker_compute_iter_keys (cfg : ReplayConfig) (c : Bool)
    (entry : Option Hash) (oracle : Nat → Option Handle) (st : ReplayState)
    (i : Nat) :
    (mapKeys (worker_compute_iter cfg c entry oracle st i).compute_pipelines
      = mapKeys st.compute_pipelines) ∧
    ((worker_compute_iter cfg c entry oracle st i).shader_modules =
      st.shader_modules) ∧
    ((worker_compute_iter cfg c entry oracle st i).graphics_pipelines =
      st.graphics_pipelines) := by
  cases ho : oracle i <;> cases entry <;> cases c <;>
    simp [worker_compute_iter, ho, mapKeys_mapWrite] <;>
    repeat' split <;> simp [mapKeys_mapWrite]

/-- Key sets across the whole shader-module create loop. -/
theorem fold_shader_keys (r : Bool) (h : Hash) (entry : Option Hash)
    (oracle : Nat → Option Handle) :
    ∀ (l : List Nat) (st : ReplayState),
    (mapKeys ((l.foldl (worker_shader_iter r h entry oracle)
        st).shader_modules) = mapKeys st.shader_modules) ∧
    ((l.foldl (worker_shader_iter r h entry oracle) st).graphics_pipelines =
      st.graphics_pipelines) ∧
    ((l.foldl (worker_shader_iter r h entry oracle) st).compute_pipelines =
      st.compute_pipelines) := by
  intro l
  induction l with
  | nil =>
    intro st
    exact ⟨rfl, rfl, rfl⟩
  | cons i l ih =>
    intro st
    rw [List.foldl_cons]
    obtain ⟨e1, e2, e3⟩ := ih (worker_shader_iter r h entry oracle st i)
    obtain ⟨f1, f2, f3⟩ := worker_shader_iter_keys r h entry oracle st i
    exact ⟨e1.trans f1, e2.trans f2, e3.trans f3⟩

/-- Key sets across the whole graphics create loop. -/
theorem fold_graphics_keys (cfg : ReplayConfig) (c : Bool)
    (entry : Option Hash) (oracle : Nat → Option Handle) :
    ∀ (l : List Nat) (st : ReplayState),
    (mapKeys ((l.foldl (worker_graphics_iter cfg c entry oracle)
        st).graphics_pipelines) = mapKeys st.graphics_pipelines) ∧
    ((l.foldl (worker_graphics_iter cfg c entry oracle) st).shader_modules =
      st.shader_modules) ∧
    ((l.foldl (worker_graphics_iter cfg c entry oracle)
        st).compute_pipelines = st.compute_pipelines) := by
  intro l
  induction l with
  | nil =>
    intro st
    exact ⟨rfl, rfl, rfl⟩
  | cons i l ih =>
    intro st
    rw [List.foldl_cons]
    obtain ⟨e1, e2, e3⟩ := ih (worker_graphics_iter cfg c entry oracle st i)
    obtain ⟨f1, f2, f3⟩ := worker_graphics_iter_keys cfg c entry oracle st i
    exact ⟨e1.trans f1, e2.trans f2, e3.trans f3⟩

/-- Key sets across the whole compute create loop. -/
theorem fold_compute_keys (cfg : ReplayConfig) (c : Bool)
    (entry : Option Hash) (oracle : Nat → Option Handle) :
    ∀ (l : List Nat) (st : ReplayState),
    (mapKeys ((l.foldl (worker_compute_iter cfg c entry oracle)
        st).compute_pipelines) = mapKeys st.compute_pipelines) ∧
    ((l.foldl (worker_compute_iter cfg c entry oracle) st).shader_modules =
      st.shader_modules) ∧
    ((l.foldl (worker_compute_iter cfg c entry oracle)
        st).graphics_pipelines = st.graphics_pipelines) := by
  intro l
  induction l with
  | nil =>
    intro st
    exact ⟨rfl, rfl, rfl⟩
  | cons i l ih =>
    intro st
    rw [List.foldl_cons]
    obtain ⟨e1, e2, e3⟩ := ih (worker_compute_iter cfg c entry oracle st i)
    obtain ⟨f1, f2, f3⟩ := worker_compute_iter_keys cfg c entry oracle st i
    exact ⟨e1.trans f1, e2.trans f2, e3.trans f3⟩

/-- Processing a work item never changes any handle-map key set: workers
only store through pre-registered slots. -/
theorem worker_process_work_item_keys (cfg : ReplayConfig)
    (oracle : Nat → Option Handle) (st : ReplayState)
    (w : PipelineWorkItem) :
    (mapKeys (worker_process_work_item cfg oracle st w).shader_modules =
      mapKeys st.shader_modules) ∧
    (mapKeys (worker_process_work_item cfg oracle st w).graphics_pipelines =
      mapKeys st.graphics_pipelines) ∧
    (mapKeys (worker_process_work_item cfg oracle st w).compute_pipelines =
      mapKeys st.compute_pipelines) := by
  obtain ⟨wh, wtag, wc, wci, wentry⟩ := w
  cases wtag with
  | RESOURCE_SHADER_MODULE =>
    have hfold := fold_shader_keys cfg.robustness wh wentry oracle
      (List.range cfg.loop_count) st
    simp only [worker_process_work_item]
    exact ⟨hfold.1, by rw [hfold.2.1], by rw [hfold.2.2]⟩
  | RESOURCE_GRAPHICS_PIPELINE =>
    cases wci with
    | none =>
      simp only [worker_process_work_item]
      refine ⟨?_, ?_, ?_⟩ <;> (repeat' split) <;> rfl
    | some ci0 =>
      cases ci0 with
      | graphics ci =>
        have hfold := fold_graphics_keys cfg wc wentry oracle
          (List.range cfg.loop_count)
        by_cases hb : hasFlag ci.flags VK_PIPELINE_CREATE_DERIVATIVE_BIT =
            true ∧ ci.basePipelineHandle = VK_NULL_HANDLE
        · simp only [worker_process_work_item]
          rw [if_pos hb]
          refine ⟨?_, ?_, ?_⟩ <;> (repeat' split) <;> rfl
        · simp only [worker_process_work_item]
          rw [if_neg hb]
          refine ⟨?_, ?_, ?_⟩ <;>
            · simp [hfold]
              repeat' split
              all_goals rfl
      | compute ci =>
        simp only [worker_process_work_item]
        refine ⟨?_, ?_, ?_⟩ <;> (repeat' split) <;> rfl
      | shader_module ci =>
        simp only [worker_process_work_item]
        refine ⟨?_, ?_, ?_⟩ <;> (repeat' split) <;> rfl
  | RESOURCE_COMPUTE_PIPELINE =>
    cases wci with
    | none =>
      simp only [worker_process_work_item]
      refine ⟨?_, ?_, ?_⟩ <;> (repeat' split) <;> rfl
    | some ci0 =>
      cases ci0 with
      | compute ci =>
        have hfold := fold_compute_keys cfg wc wentry oracle
          (List.range cfg.loop_count)
        by_cases hb : hasFlag ci.flags VK_PIPELINE_CREATE_DERIVATIVE_BIT =
            true ∧ ci.basePipelineHandle = VK_NULL_HANDLE
        · simp only [worker_process_work_item]
          rw [if_pos hb]
          refine ⟨?_, ?_, ?_⟩ <;> (repeat' split) <;> rfl
        · simp only [worker_process_work_item]
          rw [if_neg hb]
          refine ⟨?_, ?_, ?_⟩ <;>
            · simp [hfold]
              repeat' split
              all_goals rfl
      | graphics ci =>
        simp only [worker_process_work_item]
        refine ⟨?_, ?_, ?_⟩ <;> (repeat' split) <;> rfl
      | shader_module ci =>
        simp only [worker_process_work_item]
        refine ⟨?_, ?_, ?_⟩ <;> (repeat' split) <;> rfl
  | RESOURCE_APPLICATION_INFO =>
    exact ⟨rfl, rfl, rfl⟩
  | RESOURCE_SAMPLER =>
    exact ⟨rfl, rfl, rfl⟩
  | RESOURCE_DESCRIPTOR_SET_LAYOUT =>
    exact ⟨rfl, rfl, rfl⟩
  | RESOURCE_PIPELINE_LAYOUT =>
    exact ⟨rfl, rfl, rfl⟩
  | RESOURCE_RENDER_PASS =>
    exact ⟨rfl, rfl, rfl⟩
  | RESOURCE_COUNT =>
    exact ⟨rfl, rfl, rfl⟩

/-- Creation counters across a batch of indexed work items when every create
succeeds: each counter grows by loop_count times the summed item deltas. -/
theorem fold_worker_counters (cfg : ReplayConfig)
    (F : Nat → Nat → Option Handle) (hF : ∀ i j, (F i j).isSome) :
    ∀ (ws : List (Nat × PipelineWorkItem)) (st : ReplayState),
    (((ws.foldl (fun s iw => worker_process_work_item cfg (F iw.1) s iw.2)
        st).shader_module_count =
      st.shader_module_count +
        cfg.loop_count * ((ws.map Prod.snd).map item_shader_delta).sum)) ∧
    (((ws.foldl (fun s iw => worker_process_work_item cfg (F iw.1) s iw.2)
        st).graphics_pipeline_count =
      st.graphics_pipeline_count +
        cfg.loop_count * ((ws.map Prod.snd).map item_graphics_delta).sum)) ∧
    (((ws.foldl (fun s iw => worker_process_work_item cfg (F iw.1) s iw.2)
        st).compute_pipeline_count =
      st.compute_pipeline_count +
        cfg.loop_count * ((ws.map Prod.snd).map item_compute_delta).sum)) := by
  intro ws
  induction ws with
  | nil =>
    intro st
    simp
  | cons iw ws ih =>
    intro st
    rw [List.foldl_cons]
    obtain ⟨e1, e2, e3⟩ := ih (worker_process_work_item cfg (F iw.1) st iw.2)
    obtain ⟨f1, f2, f3⟩ := worker_process_work_item_counts cfg (F iw.1) st
      iw.2 (hF iw.1)
    refine ⟨?_, ?_, ?_⟩ <;> [rw [e1, f1]; rw [e2, f2]; rw [e3, f3]] <;>
      simp <;> ring

/-- Key sets across a batch of indexed work items. -/
theorem fold_worker_keys (cfg : ReplayConfig)
    (F : Nat → Nat → Option Handle) :
    ∀ (ws : List (Nat × PipelineWorkItem)) (st : ReplayState),
    ((mapKeys (ws.foldl
        (fun s iw => worker_process_work_item cfg (F iw.1) s iw.2)
        st).shader_modules = mapKeys st.shader_modules)) ∧
    ((mapKeys (ws.foldl
        (fun s iw => worker_process_work_item cfg (F iw.1) s iw.2)
        st).graphics_pipelines = mapKeys st.graphics_pipelines)) ∧
    ((mapKeys (ws.foldl
        (fun s iw => worker_process_work_item cfg (F iw.1) s iw.2)
        st).compute_pipelines = mapKeys st.compute_pipelines)) := by
  intro ws
  induction ws with
  | nil =>
    intro st
    exact ⟨rfl, rfl, rfl⟩
  | cons iw ws ih =>
    intro st
    rw [List.foldl_cons]
    obtain ⟨e1, e2, e3⟩ := ih (worker_process_work_item cfg (F iw.1) st iw.2)
    obtain ⟨f1, f2, f3⟩ := worker_process_work_item_keys cfg (F iw.1) st iw.2
    exact ⟨e1.trans f1, e2.trans f2, e3.trans f3⟩

/-- Draining the queue scales the creation counters by loop_count times the
summed deltas of the queued items, when every create succeeds. -/
theorem sync_worker_threads_counts (cfg : ReplayConfig)
    (oracle : Nat → Nat → Option Handle) (st : ReplayState)
    (hs : ∀ i j, (oracle i j).isSome) :
    ((sync_worker_threads cfg oracle st).shader_module_count =
      st.shader_module_count +
        cfg.loop_count *
          (st.pipeline_work_queue.map item_shader_delta).sum) ∧
    ((sync_worker_threads cfg oracle st).graphics_pipeline_count =
      st.graphics_pipeline_count +
        cfg.loop_count *
          (st.pipeline_work_queue.map item_graphics_delta).sum) ∧
    ((sync_worker_threads cfg oracle st).compute_pipeline_count =
      st.compute_pipeline_count +
        cfg.loop_count *
          (st.pipeline_work_queue.map item_compute_delta).sum) := by
  have h := fold_worker_counters cfg
    (fun i => oracle (st.queued_count - st.pipeline_work_queue.length + i))
    (fun i j => hs _ _) st.pipeline_work_queue.enum
    { st with pipeline_work_queue := [] }
  rw [List.enum_eq_enumFrom, List.enumFrom_map_snd] at h
  exact h

/-- Draining the queue never changes any handle-map key set. -/
theorem sync_worker_threads_keys (cfg : ReplayConfig)
    (oracle : Nat → Nat → Option Handle) (st : ReplayState) :
    (mapKeys (sync_worker_threads cfg oracle st).shader_modules =
      mapKeys st.shader_modules) ∧
    (mapKeys (sync_worker_threads cfg oracle st).graphics_pipelines =
      mapKeys st.graphics_pipelines) ∧
    (mapKeys (sync_worker_threads cfg oracle st).compute_pipelines =
      mapKeys st.compute_pipelines) := by
  exact fold_worker_keys cfg
    (fun i => oracle (st.queued_count - st.pipeline_work_queue.length + i))
    st.pipeline_work_queue.enum { st with pipeline_work_queue := [] }

/-- Registering a work item touches only the maps, the queue and
queued_count: the creation counters stay. -/
theorem register_work_item_counts (st : ReplayState)
    (w : PipelineWorkItem) :
    ((register_work_item st w).shader_module_count =
      st.shader_module_count) ∧
    ((register_work_item st w).graphics_pipeline_count =
      st.graphics_pipeline_count) ∧
    ((register_work_item st w).compute_pipeline_count =
      st.compute_pipeline_count) := by
  obtain ⟨wh, wtag, wc, wci, wentry⟩ := w
  cases wentry <;> cases wtag <;> exact ⟨rfl, rfl, rfl⟩

/-- Registering a batch appends it to the work queue. -/
theorem register_fold_queue (items : List PipelineWorkItem) :
    ∀ st : ReplayState,
    (items.foldl register_work_item st).pipeline_work_queue =
      st.pipeline_work_queue ++ items := by
  induction items with
  | nil =>
    intro st
    simp
  | cons w items ih =>
    intro st
    rw [List.foldl_cons, ih]
    have hq : (register_work_item st w).pipeline_work_queue =
        st.pipeline_work_queue ++ [w] := by
      obtain ⟨wh, wtag, wc, wci, wentry⟩ := w
      cases wentry <;> cases wtag <;> rfl
    rw [hq]
    simp

/-- Registering a batch leaves the creation counters alone. -/
theorem register_fold_counts (items : List PipelineWorkItem)
    (st : ReplayState) :
    ((items.foldl register_work_item st).shader_module_count =
      st.shader_module_count) ∧
    ((items.foldl register_work_item st).graphics_pipeline_count =
      st.graphics_pipeline_count) ∧
    ((items.foldl register_work_item st).compute_pipeline_count =
      st.compute_pipeline_count) := by
  refine ⟨?_, ?_, ?_⟩
  · exact foldl_preserves (fun s => s.shader_module_count)
      register_work_item (fun s b => (register_work_item_counts s b).1)
      items st
  · exact foldl_preserves (fun s => s.graphics_pipeline_count)
      register_work_item (fun s b => (register_work_item_counts s b).2.1)
      items st
  · exact foldl_preserves (fun s => s.compute_pipeline_count)
      register_work_item (fun s b => (register_work_item_counts s b).2.2)
      items st

/-- Claim C7: at fixed input batch on which every device create call
succeeds, a replay with loop_count k ends with exactly the same key sets in
the shader-module and pipeline handle maps as a replay with loop_count 1
(each iteration destroys the prior handle and reinstalls into the same
slot), and the three resource-creation counters are exactly k times their
loop_count = 1 values. -/
theorem replay_work_items_loop_count_scaling (cfg : ReplayConfig) (k : Nat)
    (items : List PipelineWorkItem) (st : ReplayState)
    (oracle oracle' : Nat → Nat → Option Handle)
    (hsucc : ∀ i j, (oracle i j).isSome)
    (hsucc' : ∀ i j, (oracle' i j).isSome)
    (h0s : st.shader_module_count = 0)
    (h0g : st.graphics_pipeline_count = 0)
    (h0c : st.compute_pipeline_count = 0) :
    (mapKeys (replay_work_items { cfg with loop_count := k } oracle items
        st).shader_modules =
      mapKeys (replay_work_items { cfg with loop_count := 1 } oracle' items
        st).shader_modules) ∧
    (mapKeys (replay_work_items { cfg with loop_count := k } oracle items
        st).graphics_pipelines =
      mapKeys (replay_work_items { cfg with loop_count := 1 } oracle' items
        st).graphics_pipelines) ∧
    (mapKeys (replay_work_items { cfg with loop_count := k } oracle items
        st).compute_pipelines =
      mapKeys (replay_work_items { cfg with loop_count := 1 } oracle' items
        st).compute_pipelines) ∧
    ((replay_work_items { cfg with loop_count := k } oracle items
        st).shader_module_count =
      k * (replay_work_items { cfg with loop_count := 1 } oracle' items
        st).shader_module_count) ∧
    ((replay_work_items { cfg with loop_count := k } oracle items
        st).graphics_pipeline_count =
      k * (replay_work_items { cfg with loop_count := 1 } oracle' items
        st).graphics_pipeline_count) ∧
    ((replay_work_items { cfg with loop_count := k } oracle items
        st).compute_pipeline_count =
      k * (replay_work_items { cfg with loop_count := 1 } oracle' items
        st).compute_pipeline_count) := by
  have hkk := sync_worker_threads_keys { cfg with loop_count := k } oracle
    (items.foldl register_work_item st)
  have hk1 := sync_worker_threads_keys { cfg with loop_count := 1 } oracle'
    (items.foldl register_work_item st)
  have hck := sync_worker_threads_counts { cfg with loop_count := k } oracle
    (items.foldl register_work_item st) hsucc
  have hc1 := sync_worker_threads_counts { cfg with loop_count := 1 } oracle'
    (items.foldl register_work_item st) hsucc'
  have hreg := register_fold_counts items st
  rw [replay_work_items, replay_work_items]
  refine ⟨?_, ?_, ?_, ?_, ?_, ?_⟩
  · rw [hkk.1, hk1.1]
  · rw [hkk.2.1, hk1.2.1]
  · rw [hkk.2.2, hk1.2.2]
  · rw [hck.1, hc1.1, hreg.1, h0s]
    ring
  · rw [hck.2.1, hc1.2.1, hreg.2.1, h0g]
    ring
  · rw [hck.2.2, hc1.2.2, hreg.2.2, h0c]
    ring

/-- When the returned iterator is strictly before the end, some element of
the input satisfies p. -/
theorem unstable_remove_if_lt_size_resolvable {α : Type} (p : α → Bool)
    (a : Array α) (h : (unstable_remove_if p a).2 < a.size) :
    ∃ x ∈ a.toList, p x = true := by
  obtain ⟨Hsz, Hmid, Hfalse, Htrue, Hperm⟩ := unstable_remove_if_spec p a
  have hib : (unstable_remove_if p a).2 < (unstable_remove_if p a).1.size :=
    by omega
  have hp := Htrue (unstable_remove_if p a).2 (Nat.le_refl _) h
    ((unstable_remove_if p a).1[(unstable_remove_if p a).2])
    (Array.getElem?_eq_getElem hib)
  refine ⟨(unstable_remove_if p a).1[(unstable_remove_if p a).2], ?_, hp⟩
  refine Hperm.mem_iff.mp ?_
  rw [Array.getElem_eq_getElem_toList]
  exact List.getElem_mem _

/-- The loop body stops (empty list, or bail with false) exactly when the
deferred list is empty or no deferred record's parent hash is in the
graphics handle map. -/
theorem resolve_loop_step_none_iff (cfg : ReplayConfig)
    (oracle : Nat → Nat → Option Handle)
    (derived : List DeferredGraphicsInfo) (st : ReplayState) :
    resolve_loop_step cfg oracle derived st = none ↔
      (derived = [] ∨
        ∀ d ∈ derived, resolvable_graphics st d = false) := by
  by_cases hd : derived = []
  · simp [resolve_loop_step, hd]
  · have hsz : derived.toArray.size = derived.length := by simp
    have hms := (unstable_remove_if_spec (resolvable_graphics st)
      derived.toArray).2.1
    have hsize := (unstable_remove_if_spec (resolvable_graphics st)
      derived.toArray).1
    by_cases hp : (unstable_remove_if (resolvable_graphics st)
        derived.toArray).1.size ≤
        (unstable_remove_if (resolvable_graphics st) derived.toArray).2
    · rw [resolve_loop_step, if_neg hd, if_pos hp]
      simp only [true_iff]
      refine Or.inr ?_
      have heq : (unstable_remove_if (resolvable_graphics st)
          derived.toArray).2 = derived.toArray.size := by omega
      have hall := (unstable_remove_if_eq_size_iff (resolvable_graphics st)
        derived.toArray).mp heq
      intro d hdm
      exact hall d (by simpa using hdm)
    · rw [resolve_loop_step, if_neg hd, if_neg hp]
      constructor
      · intro hcontra
        exact absurd hcontra (by simp)
      · intro hor
        rcases hor with he | hall
        · exact absurd he hd
        · exfalso
          have heq : (unstable_remove_if (resolvable_graphics st)
              derived.toArray).2 = derived.toArray.size := by
            refine (unstable_remove_if_eq_size_iff (resolvable_graphics st)
              derived.toArray).mpr ?_
            intro x hx
            exact hall x (by simpa using hx)
          omega

/-- From a state where the loop body stops, only the state itself is
reachable. -/
theorem resolve_reaches_of_step_none {cfg : ReplayConfig}
    {oracle : Nat → Nat → Option Handle}
    {s u : List DeferredGraphicsInfo × ReplayState}
    (hnone : resolve_loop_step cfg oracle s.1 s.2 = none)
    (h : ResolveReaches cfg oracle s u) : u = s := by
  cases h with
  | refl => rfl
  | head hstep htail =>
    rw [hnone] at hstep
    exact absurd hstep (by simp)

/-- The while-loop of the resolver returns false exactly when it reaches a
state with deferred pipelines left but none resolvable. -/
theorem resolve_loop_false_iff_aux (cfg : ReplayConfig)
    (oracle : Nat → Nat → Option Handle) :
    ∀ (n : Nat) (derived : List DeferredGraphicsInfo) (st : ReplayState),
      derived.length = n →
      ((resolve_derived_graphics_loop cfg oracle derived st).1 = false ↔
        ∃ d' st', ResolveReaches cfg oracle (derived, st) (d', st') ∧
          d' ≠ [] ∧ ∀ x ∈ d', resolvable_graphics st' x = false) := by
  intro n
  induction n using Nat.strong_induction_on with
  | _ n ih =>
    intro derived st hlen
    by_cases hd : derived = []
    · subst hd
      rw [resolve_derived_graphics_loop, if_pos rfl]
      constructor
      · intro hfalse
        exact absurd hfalse (by simp)
      · rintro ⟨d', st', hreach, hne, hall⟩
        have hnone : resolve_loop_step cfg oracle
            ([] : List DeferredGraphicsInfo) st = none :=
          (resolve_loop_step_none_iff cfg oracle [] st).mpr (Or.inl rfl)
        have heq := resolve_reaches_of_step_none
          (s := (([] : List DeferredGraphicsInfo), st)) (u := (d', st'))
          hnone hreach
        have hde : d' = [] := congrArg Prod.fst heq
        exact absurd hde hne
    · by_cases hp : (unstable_remove_if (resolvable_graphics st)
          derived.toArray).1.size ≤
          (unstable_remove_if (resolvable_graphics st) derived.toArray).2
      · rw [resolve_derived_graphics_loop, if_neg hd, if_pos hp]
        constructor
        · intro _
          refine ⟨derived, st, ResolveReaches.refl _, hd, ?_⟩
          have hnone : resolve_loop_step cfg oracle derived st = none := by
            rw [resolve_loop_step, if_neg hd, if_pos hp]
          have hor := (resolve_loop_step_none_iff cfg oracle derived
            st).mp hnone
          rcases hor with he | hall
          · exact absurd he hd
          · exact hall
        · intro _
          rfl
      · have hstep : resolve_loop_step cfg oracle derived st =
            some
              (((unstable_remove_if (resolvable_graphics st)
                  derived.toArray).1.toList.take
                (unstable_remove_if (resolvable_graphics st)
                  derived.toArray).2),
               (((unstable_remove_if (resolvable_graphics st)
                  derived.toArray).1.toList.drop
                (unstable_remove_if (resolvable_graphics st)
                  derived.toArray).2).foldl (resolve_enqueue_graphics cfg)
                (sync_worker_threads cfg oracle st))) := by
          rw [resolve_loop_step, if_neg hd, if_neg hp]
        have hulen : ((unstable_remove_if (resolvable_graphics st)
            derived.toArray).1.toList.take
            (unstable_remove_if (resolvable_graphics st)
              derived.toArray).2).length < n := by
          have h1 := (unstable_remove_if_spec (resolvable_graphics st)
            derived.toArray).1
          have h2 : derived.toArray.size = derived.length := by simp
          simp only [List.length_take, Array.length_toList]
          omega
        have hrec := ih _ hulen
          ((unstable_remove_if (resolvable_graphics st)
              derived.toArray).1.toList.take
            (unstable_remove_if (resolvable_graphics st) derived.toArray).2)
          (((unstable_remove_if (resolvable_graphics st)
              derived.toArray).1.toList.drop
            (unstable_remove_if (resolvable_graphics st)
              derived.toArray).2).foldl (resolve_enqueue_graphics cfg)
            (sync_worker_threads cfg oracle st)) rfl
        rw [resolve_derived_graphics_loop, if_neg hd, if_neg hp, hrec]
        constructor
        · rintro ⟨d', st', hreach, hne, hall⟩
          exact ⟨d', st', ResolveReaches.head hstep hreach, hne, hall⟩
        · rintro ⟨d', st', hreach, hne, hall⟩
          cases hreach with
          | refl =>
            have hnone := (resolve_loop_step_none_iff cfg oracle derived
              st).mpr (Or.inr hall)
            rw [hstep] at hnone
            exact absurd hnone (by simp)
          | head hstep2 htail =>
            have ht := Option.some.inj (hstep.symm.trans hstep2)
            rw [← ht] at htail
            exact ⟨d', st', htail, hne, hall⟩

/-- Claim C2: the resolver's while-loop makes progress or fails: a loop
iteration that continues strictly shrinks the deferred list and consumes at
least one deferred pipeline whose parent hash is a key of the handle map; it
stops with false exactly when it reaches a state whose non-empty deferred
list has no resolvable member (so resolve_derived_pipelines terminates on
every input instead of looping); and resolve_derived_pipelines is the
injection prologue followed by that loop. -/
theorem resolve_derived_pipelines_progress_spec (cfg : ReplayConfig)
    (oracle : Nat → Nat → Option Handle) :
    (∀ (derived d' : List DeferredGraphicsInfo) (st st' : ReplayState),
      resolve_loop_step cfg oracle derived st = some (d', st') →
      d'.length < derived.length ∧
      ∃ x ∈ derived, resolvable_graphics st x = true) ∧
    (∀ (derived : List DeferredGraphicsInfo) (st : ReplayState),
      resolve_loop_step cfg oracle derived st = none ↔
        (derived = [] ∨ ∀ d ∈ derived, resolvable_graphics st d = false)) ∧
    (∀ (derived : List DeferredGraphicsInfo) (st : ReplayState),
      (resolve_derived_graphics_loop cfg oracle derived st).1 = false ↔
        ∃ d' st', ResolveReaches cfg oracle (derived, st) (d', st') ∧
          d' ≠ [] ∧ ∀ x ∈ d', resolvable_graphics st' x = false) ∧
    (∀ (derived : List DeferredGraphicsInfo)
        (pp : List (Hash × DeferredGraphicsInfo)) (st : ReplayState),
      resolve_derived_pipelines_graphics cfg oracle derived pp st =
        resolve_derived_graphics_loop cfg oracle derived
          (resolve_inject_graphics_parents cfg derived pp st).2) := by
  refine ⟨?_, fun derived st => resolve_loop_step_none_iff cfg oracle
    derived st, fun derived st => resolve_loop_false_iff_aux cfg oracle
    derived.length derived st rfl, fun derived pp st => rfl⟩
  intro derived d' st st' hstep
  by_cases hd : derived = []
  · rw [resolve_loop_step, if_pos hd] at hstep
    exact absurd hstep (by simp)
  · by_cases hp : (unstable_remove_if (resolvable_graphics st)
        derived.toArray).1.size ≤
        (unstable_remove_if (resolvable_graphics st) derived.toArray).2
    · rw [resolve_loop_step, if_neg hd, if_pos hp] at hstep
      exact absurd hstep (by simp)
    · rw [resolve_loop_step, if_neg hd, if_neg hp] at hstep
      have hpair := Option.some.inj hstep
      have hd' : d' = (unstable_remove_if (resolvable_graphics st)
          derived.toArray).1.toList.take
          (unstable_remove_if (resolvable_graphics st) derived.toArray).2 :=
        (congrArg Prod.fst hpair).symm
      have h1 := (unstable_remove_if_spec (resolvable_graphics st)
        derived.toArray).1
      have h2 : derived.toArray.size = derived.length := by simp
      constructor
      · rw [hd']
        simp only [List.length_take, Array.length_toList]
        omega
      · have hex := unstable_remove_if_lt_size_resolvable
          (resolvable_graphics st) derived.toArray (by omega)
        obtain ⟨x, hx, hpx⟩ := hex
        exact ⟨x, by simpa using hx, hpx⟩

/-- Oracle over item positions and loop iterations on which every create
succeeds. -/
def exampleBatchOracle : Nat → Nat → Option Handle :=
  fun _ j => some (j + 1)

/-- Witness for C7 at a concrete batch: loop_count 3 versus 1. -/
theorem replay_work_items_loop_count_scaling_witness :
    (mapKeys (replay_work_items { exampleFullSliceCfg with loop_count := 3 }
        exampleBatchOracle [exampleGraphicsItem, exampleComputeItem]
        initialReplayState).graphics_pipelines =
      mapKeys (replay_work_items { exampleFullSliceCfg with loop_count := 1 }
        exampleBatchOracle [exampleGraphicsItem, exampleComputeItem]
        initialReplayState).graphics_pipelines) ∧
    ((replay_work_items { exampleFullSliceCfg with loop_count := 3 }
        exampleBatchOracle [exampleGraphicsItem, exampleComputeItem]
        initialReplayState).graphics_pipeline_count =
      3 * (replay_work_items { exampleFullSliceCfg with loop_count := 1 }
        exampleBatchOracle [exampleGraphicsItem, exampleComputeItem]
        initialReplayState).graphics_pipeline_count) := by
  have h := replay_work_items_loop_count_scaling exampleFullSliceCfg 3
    [exampleGraphicsItem, exampleComputeItem] initialReplayState
    exampleBatchOracle exampleBatchOracle (fun i j => rfl) (fun i j => rfl)
    rfl rfl rfl
  exact ⟨h.2.1, h.2.2.2.2.1⟩

end Fossilize
